import Mathlib

/-!
# Reconnect scheduling of the telemetry daemon's MQTT client

A shallow embedding of `include/reconnect_backoff.h` (class `ReconnectBackoff`) and of
`src/mqtt_client.cpp` / `include/mqtt_client.h` (class `MqttClient`).

Modelling conventions.

* A `TimePoint` is the tick count of a `std::chrono::steady_clock::time_point`
  (`time_since_epoch().count()`), an `Int`.  The tick period is the nanosecond of
  libstdc++ on Linux.  The default-constructed time point `{}` is the tick count `0`.
  A tick count may be zero or negative.  The code keeps the tick count `0` for "no
  start time" and for "nothing scheduled", so a statement that fails where a recorded
  time is the tick count `0` names the times for which it holds (for instance
  `0 ≤ now`).
* `int` arithmetic that can overflow (`backoff_ * 2`) wraps modulo `2^32`
  (`wrapInt32`); the `uint64_t` counter wraps modulo `2^64`.
* The atomics are read and written one call at a time: every member function is a
  function from the state before the call to the state after it.  `publish_during`
  adds the notifications the transport thread delivers between the tick of
  `ensure_connected` and its second read of `connected_`.
* What the code obtains from outside is an argument: the clock reading `now`
  (`now_fn_()`), the result code of `reconnect_fn_()`, the jitter drawn by
  `jitter_fn_()` (milliseconds), the result codes of the libmosquitto calls.
* Calls into the transport are recorded, in order, as a list of `Effect`s.
-/

namespace Telemetry

/-! ## Time -/

/-- Ticks of `steady_clock` in one millisecond (nanosecond ticks). -/
def ticksPerMilli : Int := 1000000

/-- Ticks of `steady_clock` in one second (nanosecond ticks). -/
def ticksPerSecond : Int := 1000000000

/-- Two's complement wrap of a mathematical integer to a 32-bit `int`. -/
def wrapInt32 (x : Int) : Int := (x + 2147483648) % 4294967296 - 2147483648

/-! ## `ReconnectBackoff` (reconnect_backoff.h) -/

/-- The data members of `ReconnectBackoff`; `next_` is a tick count, `0` being the
default-constructed `TimePoint{}`.  The member `jitter_fn_` is an argument of
`schedule_next`. -/
structure ReconnectBackoff where
  initial_ : Int
  max_ : Int
  backoff_ : Int
  next_ : Int
  deriving DecidableEq, Repr

namespace ReconnectBackoff

/-- The constructor `ReconnectBackoff(initial_seconds, max_seconds, jitter_fn)`. -/
def new (initial_seconds : Int) (max_seconds : Int) : ReconnectBackoff :=
  { initial_ := initial_seconds, max_ := max_seconds, backoff_ := initial_seconds, next_ := 0 }

/-- The member `can_attempt(now)`:
`next_.time_since_epoch().count() == 0 || now >= next_`. -/
def can_attempt (b : ReconnectBackoff) (now : Int) : Bool :=
  b.next_ == 0 || decide (now ≥ b.next_)

/-- The private member `schedule_next(now)`; `jitter_ms` is what `jitter_fn_()` returns.
`delay = seconds(backoff_) + jitter_fn_()` is a count of milliseconds, `next_ = now + delay`
a count of ticks, and then `backoff_ = std::min(backoff_ * 2, max_)`. -/
def schedule_next (b : ReconnectBackoff) (now : Int) (jitter_ms : Int) : ReconnectBackoff :=
  { b with
    next_ := now + (b.backoff_ * 1000 + jitter_ms) * ticksPerMilli
    backoff_ := min (wrapInt32 (b.backoff_ * 2)) b.max_ }

/-- The member `schedule_attempt(now)`. -/
def schedule_attempt (b : ReconnectBackoff) (now : Int) (jitter_ms : Int) : ReconnectBackoff :=
  b.schedule_next now jitter_ms

/-- The member `reset()`. -/
def reset (b : ReconnectBackoff) : ReconnectBackoff :=
  { b with backoff_ := b.initial_, next_ := 0 }

/-- The member `backoff_seconds()`. -/
def backoff_seconds (b : ReconnectBackoff) : Int := b.backoff_

/-- The member `next_time()`. -/
def next_time (b : ReconnectBackoff) : Int := b.next_

end ReconnectBackoff

/-! ## libmosquitto result codes and transport calls -/

/-- The value of `MOSQ_ERR_SUCCESS` in `mosquitto.h`. -/
def MOSQ_ERR_SUCCESS : Int := 0

/-- The value of `MOSQ_ERR_NO_CONN` in `mosquitto.h`. -/
def MOSQ_ERR_NO_CONN : Int := 4

/-- A call the client makes into the transport or into `reconnect_fn_`. -/
inductive Effect where
  /-- A call of `reconnect_fn_()`. -/
  | reconnect
  /-- A call of `mosquitto_publish(mosq_, nullptr, topic, len, payload, qos, retain)`. -/
  | publish (topic : String) (payload : String) (qos : Int) (retain : Bool)
  /-- A call of `mosquitto_disconnect(mosq_)`. -/
  | disconnect
  /-- A call of `mosquitto_loop_stop(mosq_, true)`. -/
  | loop_stop
  /-- A call of `mosquitto_connect_async(mosq_, host, port, keepalive)`. -/
  | connect_async (keepalive : Int)
  /-- A call of `mosquitto_loop_start(mosq_)`. -/
  | loop_start
  deriving DecidableEq, Repr

/-- Number of calls of the reconnect primitive in a trace. -/
def reconnectCalls (tr : List Effect) : Nat := tr.count Effect.reconnect

/-- Number of calls of `mosquitto_disconnect` in a trace. -/
def disconnectCalls (tr : List Effect) : Nat := tr.count Effect.disconnect

/-- Whether an effect is a call of `mosquitto_publish`. -/
def Effect.isPublish : Effect → Bool
  | Effect.publish _ _ _ _ => true
  | _ => false

/-- Number of calls of `mosquitto_publish` in a trace. -/
def publishCalls (tr : List Effect) : Nat := tr.countP Effect.isPublish

/-- Whether an effect is a `mosquitto_publish` of `payload` on `topic`. -/
def Effect.isPublishOf (topic payload : String) : Effect → Bool
  | Effect.publish t p _ _ => t == topic && p == payload
  | _ => false

/-- Number of publishes of `payload` on `topic` in a trace. -/
def publishesOf (topic payload : String) (tr : List Effect) : Nat :=
  tr.countP (Effect.isPublishOf topic payload)

/-! ## `MqttClient` (mqtt_client.h, mqtt_client.cpp) -/

/-- The data members of `MqttClient` that its member functions read or write.
`mosq_present` is the value of `has_mosq_()`.  `reconnect_started_ticks_` is a tick
count in which `0` stands for "no start time". -/
structure MqttClient where
  mosq_present : Bool
  connected_ : Bool
  stopping_ : Bool
  loop_started_ : Bool
  reconnect_in_flight_ : Bool
  reconnect_started_ticks_ : Int
  reconnects_ : Nat
  backoff_ : ReconnectBackoff
  status_topic_ : String
  will_payload_ : String
  online_payload_ : String
  qos_ : Int
  deriving DecidableEq, Repr

/-- The constant `k_reconnect_in_flight_timeout = std::chrono::seconds(15)`, in ticks. -/
def k_reconnect_in_flight_timeout : Int := 15 * ticksPerSecond

/-- The constant `k_max_backoff_seconds`. -/
def k_max_backoff_seconds : Int := 60

/-- What one run of `tick_reconnect_` obtains from outside: the result code of
`reconnect_fn_()` and the jitter (milliseconds) drawn by each of its two calls of
`backoff_.schedule_attempt`. -/
structure TickEnv where
  /-- Result of `reconnect_fn_()`, when it is called. -/
  rc : Int
  /-- Jitter drawn by the `schedule_attempt` of the in-flight-timeout branch. -/
  jitter_timeout : Int
  /-- Jitter drawn by the final `schedule_attempt`. -/
  jitter_attempt : Int
  deriving DecidableEq, Repr

namespace MqttClient

/-- The state a constructed client starts in: every flag false, no start time, zero
reconnects and `backoff_{1, k_max_backoff_seconds, jitter}`. -/
def init (mosq_present : Bool) (status_topic will_payload online_payload : String)
    (qos : Int) : MqttClient :=
  { mosq_present := mosq_present
    connected_ := false
    stopping_ := false
    loop_started_ := false
    reconnect_in_flight_ := false
    reconnect_started_ticks_ := 0
    reconnects_ := 0
    backoff_ := ReconnectBackoff.new 1 k_max_backoff_seconds
    status_topic_ := status_topic
    will_payload_ := will_payload
    online_payload_ := online_payload
    qos_ := qos }

/-- The member `has_mosq_()`. -/
def has_mosq_ (s : MqttClient) : Bool := s.mosq_present

/-- The member `publish_status_(payload)`: a retained `mosquitto_publish` on the status
topic, skipped without a handle or when not connected.  Its result is only logged. -/
def publish_status_ (s : MqttClient) (payload : String) : List Effect :=
  if !s.has_mosq_ then []
  else if !s.connected_ then []
  else [Effect.publish s.status_topic_ payload s.qos_ true]

/-- The callback `on_connect(mosq, obj, rc)`. -/
def on_connect (s : MqttClient) (rc : Int) : MqttClient × List Effect :=
  if rc = 0 then
    let s1 := { s with
      connected_ := true
      reconnect_in_flight_ := false
      reconnect_started_ticks_ := 0
      backoff_ := s.backoff_.reset }
    (s1, s1.publish_status_ s1.online_payload_)
  else
    ({ s with connected_ := false }, [])

/-- The callback `on_disconnect(mosq, obj, rc)`; what it does with `stopping_` and `rc` is
to choose a log line. -/
def on_disconnect (s : MqttClient) (_rc : Int) : MqttClient × List Effect :=
  ({ s with
      connected_ := false
      reconnect_in_flight_ := false
      reconnect_started_ticks_ := 0 }, [])

/-- The member `in_flight_timed_out_(now)`: its result and the state it leaves. -/
def in_flight_timed_out_ (s : MqttClient) (now : Int) : Bool × MqttClient :=
  if !s.reconnect_in_flight_ then (false, s)
  else if s.reconnect_started_ticks_ = 0 then
    (true, { s with reconnect_in_flight_ := false })
  else if now - s.reconnect_started_ticks_ ≥ k_reconnect_in_flight_timeout then
    (true, { s with reconnect_in_flight_ := false, reconnect_started_ticks_ := 0 })
  else (false, s)

/-- The member `tick_reconnect_()`, with `now = now_fn_()`. -/
def tick_reconnect_ (s : MqttClient) (now : Int) (e : TickEnv) : MqttClient × List Effect :=
  if s.stopping_ then (s, [])
  else if s.connected_ then (s, [])
  else if !s.has_mosq_ then (s, [])
  else
    let r := s.in_flight_timed_out_ now
    let s1 := r.2
    let s2 := if r.1 then
        { s1 with backoff_ := s1.backoff_.schedule_attempt now e.jitter_timeout }
      else s1
    if s2.reconnect_in_flight_ then (s2, [])
    else if !s2.backoff_.can_attempt now then (s2, [])
    else
      let s3 := if e.rc = MOSQ_ERR_SUCCESS then
          { s2 with
            reconnects_ := (s2.reconnects_ + 1) % 18446744073709551616
            reconnect_started_ticks_ := now
            reconnect_in_flight_ := true }
        else s2
      ({ s3 with backoff_ := s3.backoff_.schedule_attempt now e.jitter_attempt },
        [Effect.reconnect])

/-- The member `tick()`. -/
def tick (s : MqttClient) (now : Int) (e : TickEnv) : MqttClient × List Effect :=
  s.tick_reconnect_ now e

/-- The state `tick_reconnect_` leaves when it calls `reconnect_fn_()` at `now`, the call
returns `rc`, and the closing `schedule_attempt(now)` draws the jitter `j`. -/
def afterAttempt (s : MqttClient) (now : Int) (rc : Int) (j : Int) : MqttClient :=
  if rc = MOSQ_ERR_SUCCESS then
    { s with
      reconnects_ := (s.reconnects_ + 1) % 18446744073709551616
      reconnect_started_ticks_ := now
      reconnect_in_flight_ := true
      backoff_ := s.backoff_.schedule_attempt now j }
  else { s with backoff_ := s.backoff_.schedule_attempt now j }

/-- The member `ensure_connected()` when the transport thread delivers no notification
between `tick_reconnect_()` and the second `connected_.load()`: its result, the state it
leaves and its calls.  `ensure_connected_during` is the member with such notifications. -/
def ensure_connected (s : MqttClient) (now : Int) (e : TickEnv) :
    Bool × MqttClient × List Effect :=
  if s.connected_ then (true, s, [])
  else
    let r := s.tick_reconnect_ now e
    (r.1.connected_, r.1, r.2)

/-- What one run of `publish` obtains from outside: the clock reading and the
`TickEnv` of the tick inside `ensure_connected`, the result code of `mosquitto_publish`,
and the clock reading and `TickEnv` of the tick after a `MOSQ_ERR_NO_CONN`. -/
structure PublishEnv where
  now_ensure : Int
  env_ensure : TickEnv
  publish_rc : Int
  now_noconn : Int
  env_noconn : TickEnv
  deriving DecidableEq, Repr

/-- The member `publish(topic, payload, qos, retain)` when the transport thread delivers
no notification during the call: its result, the state it leaves and its calls.
`publish_during` is the member with notifications delivered inside `ensure_connected`. -/
def publish (s : MqttClient) (topic payload : String) (qos : Int) (retain : Bool)
    (e : PublishEnv) : Bool × MqttClient × List Effect :=
  let r := s.ensure_connected e.now_ensure e.env_ensure
  if !r.1 then (false, r.2.1, r.2.2)
  else
    let s1 := r.2.1
    let tr := r.2.2 ++ [Effect.publish topic payload qos retain]
    if e.publish_rc = MOSQ_ERR_NO_CONN then
      let t := ({ s1 with connected_ := false } : MqttClient).tick_reconnect_
        e.now_noconn e.env_noconn
      (false, t.1, tr ++ t.2)
    else if e.publish_rc ≠ MOSQ_ERR_SUCCESS then (false, s1, tr)
    else (true, s1, tr)

/-- The member `stop()`. -/
def stop (s : MqttClient) : MqttClient × List Effect :=
  if s.stopping_ then (s, [])
  else
    let s1 := { s with stopping_ := true }
    if !s1.has_mosq_ then (s1, [])
    else
      let tr := s1.publish_status_ s1.will_payload_ ++ [Effect.disconnect]
      if s1.loop_started_ then
        ({ s1 with loop_started_ := false }, tr ++ [Effect.loop_stop])
      else (s1, tr)

/-- The member `connect(keepalive_seconds)`; `rc_connect` and `rc_loop` are the result
codes of `mosquitto_connect_async` and `mosquitto_loop_start`. -/
def connect (s : MqttClient) (keepalive_seconds : Int) (rc_connect rc_loop : Int) :
    Bool × MqttClient × List Effect :=
  if !s.has_mosq_ then (false, s, [])
  else if rc_connect ≠ MOSQ_ERR_SUCCESS then
    (false, s, [Effect.connect_async keepalive_seconds])
  else if !s.loop_started_ then
    if rc_loop ≠ MOSQ_ERR_SUCCESS then
      (false, { s with loop_started_ := false },
        [Effect.connect_async keepalive_seconds, Effect.loop_start])
    else
      (true, { s with loop_started_ := true },
        [Effect.connect_async keepalive_seconds, Effect.loop_start])
  else (true, s, [Effect.connect_async keepalive_seconds])

end MqttClient

/-! ## Notifications delivered while `publish` runs -/

/-- A notification the transport's network thread delivers: a call of the callback
`on_connect(mosq, obj, rc)` or `on_disconnect(mosq, obj, rc)`. -/
inductive Callback where
  | on_connect (rc : Int)
  | on_disconnect (rc : Int)
  deriving DecidableEq, Repr

namespace MqttClient

/-- The state after the transport thread has run the callbacks `arrived`, in order, and
the transport calls those callbacks made themselves. -/
def deliver (s : MqttClient) : List Callback → MqttClient × List Effect
  | [] => (s, [])
  | Callback.on_connect rc :: rest =>
    let r := s.on_connect rc
    let r2 := deliver r.1 rest
    (r2.1, r.2 ++ r2.2)
  | Callback.on_disconnect rc :: rest =>
    let r := s.on_disconnect rc
    let r2 := deliver r.1 rest
    (r2.1, r.2 ++ r2.2)

/-- The member `ensure_connected()`, the transport thread delivering the notifications
`arrived` between `tick_reconnect_()` and the second `connected_.load()`, which reads the
flag as those notifications left it.  The calls listed are those of the caller's thread;
the calls of the callbacks are those of `deliver`. -/
def ensure_connected_during (s : MqttClient) (now : Int) (e : TickEnv)
    (arrived : List Callback) : Bool × MqttClient × List Effect :=
  if s.connected_ then (true, s, [])
  else
    let r := s.tick_reconnect_ now e
    let s1 := (r.1.deliver arrived).1
    (s1.connected_, s1, r.2)

/-- The member `publish(topic, payload, qos, retain)`, the transport thread delivering
the notifications `arrived` inside `ensure_connected()`: its result, the state it
leaves and the calls of the caller's thread. -/
def publish_during (s : MqttClient) (topic payload : String) (qos : Int) (retain : Bool)
    (e : PublishEnv) (arrived : List Callback) : Bool × MqttClient × List Effect :=
  let r := s.ensure_connected_during e.now_ensure e.env_ensure arrived
  if !r.1 then (false, r.2.1, r.2.2)
  else
    let s1 := r.2.1
    let tr := r.2.2 ++ [Effect.publish topic payload qos retain]
    if e.publish_rc = MOSQ_ERR_NO_CONN then
      let t := ({ s1 with connected_ := false } : MqttClient).tick_reconnect_
        e.now_noconn e.env_noconn
      (false, t.1, tr ++ t.2)
    else if e.publish_rc ≠ MOSQ_ERR_SUCCESS then (false, s1, tr)
    else (true, s1, tr)

end MqttClient

/-! ## Sequences of calls -/

/-- One call on the client by its owner or by the transport, with what the call
obtains from outside. -/
inductive Op where
  | tick (now : Int) (e : TickEnv)
  | publish (topic payload : String) (qos : Int) (retain : Bool) (e : MqttClient.PublishEnv)
  | onConnect (rc : Int)
  | onDisconnect (rc : Int)
  | stop
  | connect (keepalive_seconds : Int) (rc_connect rc_loop : Int)
  deriving DecidableEq, Repr

/-- The state after one call and the calls it made into the transport. -/
def step (s : MqttClient) : Op → MqttClient × List Effect
  | Op.tick now e => s.tick now e
  | Op.publish topic payload qos retain e => (s.publish topic payload qos retain e).2
  | Op.onConnect rc => s.on_connect rc
  | Op.onDisconnect rc => s.on_disconnect rc
  | Op.stop => s.stop
  | Op.connect k rc1 rc2 => (s.connect k rc1 rc2).2

/-- The state after a sequence of calls and the whole trace of transport calls. -/
def run (s : MqttClient) : List Op → MqttClient × List Effect
  | [] => (s, [])
  | op :: ops =>
    let r := step s op
    let r2 := run r.1 ops
    (r2.1, r.2 ++ r2.2)

/-- The state after a sequence of ticks and the whole trace of transport calls. -/
def ticks (s : MqttClient) : List (Int × TickEnv) → MqttClient × List Effect
  | [] => (s, [])
  | (now, e) :: rest =>
    let r := s.tick now e
    let r2 := ticks r.1 rest
    (r2.1, r.2 ++ r2.2)

/-! ## Assumptions on what the environment supplies -/

/-- The backoff of a client is the member `backoff_{1, k_max_backoff_seconds, ...}`:
its bounds are `1` and `60` and its delay lies between them. -/
def BackoffInv (b : ReconnectBackoff) : Prop :=
  b.initial_ = 1 ∧ b.max_ = k_max_backoff_seconds ∧ 1 ≤ b.backoff_ ∧ b.backoff_ ≤ b.max_

instance (b : ReconnectBackoff) : Decidable (BackoffInv b) := by
  unfold BackoffInv; infer_instance

/-- The jitter of a client is drawn from `jitter_dist_{0, 200}`. -/
def JitterOk (j : Int) : Prop := 0 ≤ j ∧ j ≤ 200

instance (j : Int) : Decidable (JitterOk j) := by
  unfold JitterOk; infer_instance

/-- Both jitters of a tick are drawn from `jitter_dist_{0, 200}`. -/
def TickEnv.JitterOk (e : TickEnv) : Prop :=
  Telemetry.JitterOk e.jitter_timeout ∧ Telemetry.JitterOk e.jitter_attempt

instance (e : TickEnv) : Decidable (TickEnv.JitterOk e) := by
  unfold TickEnv.JitterOk; infer_instance

/-! ## Sequences of calls on a `ReconnectBackoff` -/

/-- The largest value of a 32-bit `int`. -/
def INT_MAX : Int := 2147483647

/-- The saturation `sat` of the specification of the doubling: a mathematical integer
clamped to the range of a 32-bit `int`. -/
def satInt32 (x : Int) : Int := max (-INT_MAX - 1) (min x INT_MAX)

/-- One call that changes a `ReconnectBackoff`: `schedule_attempt(now)`, with the jitter
its `jitter_fn_()` call returns (milliseconds), or `reset()`. -/
inductive BackoffOp where
  | schedule (now : Int) (jitter_ms : Int)
  | reset
  deriving DecidableEq, Repr

namespace ReconnectBackoff

/-- The backoff after one call. -/
def apply (b : ReconnectBackoff) : BackoffOp → ReconnectBackoff
  | BackoffOp.schedule now j => b.schedule_attempt now j
  | BackoffOp.reset => b.reset

/-- The backoff after a sequence of calls. -/
def runOps (b : ReconnectBackoff) : List BackoffOp → ReconnectBackoff
  | [] => b
  | op :: ops => runOps (b.apply op) ops

/-- The backoff after consecutive `schedule_attempt` calls, one for each pair of a
clock reading and a jitter. -/
def schedules (b : ReconnectBackoff) : List (Int × Int) → ReconnectBackoff
  | [] => b
  | (now, j) :: rest => schedules (b.schedule_attempt now j) rest

/-- The time an attempt is waiting for, in the words of the specification of
`canAttempt`: nothing when no `schedule_attempt` has happened since construction or since
the last `reset`, and otherwise the time stored by the most recent `schedule_attempt`.
`pending` is the value before the calls; a constructed backoff starts with `none`. -/
def scheduledTime (b : ReconnectBackoff) (pending : Option Int) : List BackoffOp → Option Int
  | [] => pending
  | BackoffOp.schedule now j :: ops =>
    scheduledTime (b.schedule_attempt now j) (some (b.schedule_attempt now j).next_time) ops
  | BackoffOp.reset :: ops => scheduledTime b.reset none ops

/-- The specification of `canAttempt(now)`: true if no attempt is scheduled, or
`now >= nextAllowedAttempt`. -/
def canAttemptSpec (pending : Option Int) (now : Int) : Bool :=
  match pending with
  | none => true
  | some t => decide (now ≥ t)

end ReconnectBackoff

/-! ## Properties of client states -/

/-- The value of `MOSQ_ERR_INVAL` in `mosquitto.h`, which the library returns for a null
handle. -/
def MOSQ_ERR_INVAL : Int := 3

/-- Every clock reading a call obtains from `now_fn_()` is different from zero. -/
def Op.ClocksNonzero : Op → Prop
  | Op.tick now _ => now ≠ 0
  | Op.publish _ _ _ _ e => e.now_ensure ≠ 0 ∧ e.now_noconn ≠ 0
  | _ => True

instance (op : Op) : Decidable op.ClocksNonzero := by
  cases op <;> unfold Op.ClocksNonzero <;> infer_instance

/-- A client without a transport handle that is not connected. -/
def noHandleClient : MqttClient := MqttClient.init false "" "" "" 0

/-! ## The log of reconnect attempts -/

namespace MqttClient

/-- The value of `backoff_seconds()` at the moment `tick_reconnect_` calls
`reconnect_fn_()`, when it does: the control flow of `tick_reconnect_` up to that call. -/
def attemptDelay (s : MqttClient) (now : Int) (e : TickEnv) : Option Int :=
  if s.stopping_ then none
  else if s.connected_ then none
  else if !s.has_mosq_ then none
  else
    let r := s.in_flight_timed_out_ now
    let s1 := r.2
    let s2 := if r.1 then
        { s1 with backoff_ := s1.backoff_.schedule_attempt now e.jitter_timeout }
      else s1
    if s2.reconnect_in_flight_ then none
    else if !s2.backoff_.can_attempt now then none
    else some s2.backoff_.backoff_seconds

/-- The reconnect attempts of one tick: the clock reading and the delay in force of each
call of `reconnect_fn_()`. -/
def tickLog (s : MqttClient) (now : Int) (e : TickEnv) : List (Int × Int) :=
  match s.attemptDelay now e with
  | some d => [(now, d)]
  | none => []

end MqttClient

/-- The reconnect attempts of one call: those of the tick it runs, if any (`publish`
runs the tick of `ensure_connected` when not connected, and a tick after
`MOSQ_ERR_NO_CONN` when connected). -/
def stepLog (s : MqttClient) : Op → List (Int × Int)
  | Op.tick now e => s.tickLog now e
  | Op.publish _ _ _ _ e =>
    if s.connected_ then
      if e.publish_rc = MOSQ_ERR_NO_CONN then
        ({ s with connected_ := false } : MqttClient).tickLog e.now_noconn e.env_noconn
      else []
    else s.tickLog e.now_ensure e.env_ensure
  | _ => []

/-- The reconnect attempts of a sequence of calls, in order. -/
def runLog (s : MqttClient) : List Op → List (Int × Int)
  | [] => []
  | op :: ops => stepLog s op ++ runLog (step s op).1 ops

/-- Successive attempts `(t1, d1)`, `(t2, d2)` of a log are at least `d1` seconds
apart, and every delay but the last is at least one second. -/
def AttemptsSpaced : List (Int × Int) → Prop
  | [] => True
  | [_] => True
  | a :: b :: rest =>
    (1 ≤ a.2 ∧ a.2 * ticksPerSecond ≤ b.1 - a.1) ∧ AttemptsSpaced (b :: rest)

/-- The clock readings of a sequence of calls do not decrease and are at least `lo`.
A `publish` holds two readings, of which it uses at most one. -/
def ClocksFrom (lo : Int) : List Op → Prop
  | [] => True
  | Op.tick now _ :: rest => lo ≤ now ∧ ClocksFrom now rest
  | Op.publish _ _ _ _ e :: rest =>
    lo ≤ e.now_ensure ∧ e.now_ensure ≤ e.now_noconn ∧ ClocksFrom e.now_noconn rest
  | _ :: rest => ClocksFrom lo rest

/-- Every jitter a call draws is from `jitter_dist_{0, 200}`. -/
def Op.JittersOk : Op → Prop
  | Op.tick _ e => e.JitterOk
  | Op.publish _ _ _ _ e => e.env_ensure.JitterOk ∧ e.env_noconn.JitterOk
  | _ => True

/-- The call is not a successful connect notification `onConnect(0)`. -/
def Op.NoConnectSuccess : Op → Prop
  | Op.onConnect rc => rc ≠ 0
  | _ => True

instance decAttemptsSpaced : (l : List (Int × Int)) → Decidable (AttemptsSpaced l)
  | [] => isTrue trivial
  | [_] => isTrue trivial
  | a :: b :: rest =>
    have := decAttemptsSpaced (b :: rest)
    (inferInstance : Decidable
      ((1 ≤ a.2 ∧ a.2 * ticksPerSecond ≤ b.1 - a.1) ∧ AttemptsSpaced (b :: rest)))

instance decClocksFrom : (lo : Int) → (ops : List Op) → Decidable (ClocksFrom lo ops)
  | _, [] => isTrue trivial
  | lo, Op.tick now _ :: rest =>
    have := decClocksFrom now rest
    (inferInstance : Decidable (lo ≤ now ∧ ClocksFrom now rest))
  | lo, Op.publish _ _ _ _ e :: rest =>
    have := decClocksFrom e.now_noconn rest
    (inferInstance : Decidable
      (lo ≤ e.now_ensure ∧ e.now_ensure ≤ e.now_noconn ∧ ClocksFrom e.now_noconn rest))
  | lo, Op.onConnect _ :: rest => decClocksFrom lo rest
  | lo, Op.onDisconnect _ :: rest => decClocksFrom lo rest
  | lo, Op.stop :: rest => decClocksFrom lo rest
  | lo, Op.connect _ _ _ :: rest => decClocksFrom lo rest

instance (op : Op) : Decidable op.JittersOk := by
  cases op <;> unfold Op.JittersOk <;> infer_instance

instance (op : Op) : Decidable op.NoConnectSuccess := by
  cases op <;> unfold Op.NoConnectSuccess <;> infer_instance

/-- A tick at `now` that takes the in-flight-timeout branch, where it calls
`schedule_attempt(now)`, and then calls `reconnect_fn_()`, after which it calls
`schedule_attempt(now)` a second time. -/
def MqttClient.DoublesBackoff (s : MqttClient) (now : Int) (e : TickEnv) : Prop :=
  s.stopping_ = false ∧ s.connected_ = false ∧ s.has_mosq_ = true
  ∧ (s.in_flight_timed_out_ now).1 = true ∧ reconnectCalls (s.tick now e).2 = 1

instance (s : MqttClient) (now : Int) (e : TickEnv) : Decidable (s.DoublesBackoff now e) := by
  unfold MqttClient.DoublesBackoff; infer_instance

/-- What the backoff of `s` keeps of the last reconnect attempt `(t1, d1)`, if any, when
every clock reading so far is at most `lo`: the attempt was at a positive time not after
`lo` with a delay of at least one second, the delay has not shrunk since, and the stored
next-attempt time is not before `t1 + d1` seconds. -/
def AttemptGuard (s : MqttClient) (lo : Int) : Option (Int × Int) → Prop
  | none => True
  | some a =>
    1 ≤ a.2 ∧ 0 < a.1 ∧ a.1 ≤ lo ∧ a.2 ≤ s.backoff_.backoff_
    ∧ a.1 + a.2 * ticksPerSecond ≤ s.backoff_.next_

/-! ## The statements of `reset` and `schedule_next`, one at a time -/

/-- The thread that runs a statement: the caller of `tick()`, inside
`backoff_.schedule_attempt(now)`, or the transport's network thread, inside the
`backoff_.reset()` of `on_connect`. -/
inductive ThreadId where
  | caller
  | callback
  deriving DecidableEq, Repr

/-- The call `schedule_next(now)` in progress: the number of its statements already run
and its local `delay` (milliseconds). -/
structure ScheduleCall where
  pc : Nat
  now : Int
  jitter_ms : Int
  delay_ms : Int
  deriving DecidableEq, Repr

/-- The next statement of `schedule_next(now)`:
`auto delay = seconds(backoff_) + jitter_fn_();` then `next_ = now + delay;` then
`backoff_ = std::min(backoff_ * 2, max_);`. -/
def ScheduleCall.step (c : ScheduleCall) (b : ReconnectBackoff) :
    ScheduleCall × ReconnectBackoff :=
  match c.pc with
  | 0 => ({ c with pc := 1, delay_ms := b.backoff_ * 1000 + c.jitter_ms }, b)
  | 1 => ({ c with pc := 2 }, { b with next_ := c.now + c.delay_ms * ticksPerMilli })
  | 2 => ({ c with pc := 3 }, { b with backoff_ := min (wrapInt32 (b.backoff_ * 2)) b.max_ })
  | _ => (c, b)

/-- The next statement of `reset()`, of which `pc` have run: `backoff_ = initial_;`
then `next_ = {};`. -/
def resetStep (pc : Nat) (b : ReconnectBackoff) : Nat × ReconnectBackoff :=
  match pc with
  | 0 => (1, { b with backoff_ := b.initial_ })
  | 1 => (2, { b with next_ := 0 })
  | _ => (pc, b)

/-- The backoff after the statements of a `schedule_next(now)` on the caller thread and
of a `reset()` on the callback thread have run in the order `order` names the threads,
with no lock between them. -/
def interleave (c : ScheduleCall) (rpc : Nat) (b : ReconnectBackoff) :
    List ThreadId → ReconnectBackoff
  | [] => b
  | ThreadId.caller :: rest => interleave (c.step b).1 rpc (c.step b).2 rest
  | ThreadId.callback :: rest => interleave c (resetStep rpc b).1 (resetStep rpc b).2 rest

/-- A call `schedule_next(now)` before its first statement. -/
def ScheduleCall.start (now jitter_ms : Int) : ScheduleCall :=
  { pc := 0, now := now, jitter_ms := jitter_ms, delay_ms := 0 }

/-! ## Concrete clients and environments used in the examples -/

/-- A client with a transport handle, as constructed. -/
def c1Client : MqttClient := MqttClient.init true "devices/dev1/status" "offline" "online" 1

/-- The reconnect primitive returns `MOSQ_ERR_SUCCESS`; the jitter is zero. -/
def envSuccess : TickEnv := { rc := MOSQ_ERR_SUCCESS, jitter_timeout := 0, jitter_attempt := 0 }

/-- Every clock reading is `1000`, the reconnect primitive and `mosquitto_publish`
return `MOSQ_ERR_SUCCESS`, the jitter is zero. -/
def pubEnvSuccess : MqttClient.PublishEnv :=
  { now_ensure := 1000, env_ensure := envSuccess, publish_rc := MOSQ_ERR_SUCCESS,
    now_noconn := 1000, env_noconn := envSuccess }

/-- As `pubEnvSuccess`, but `mosquitto_publish` returns `MOSQ_ERR_NO_CONN`. -/
def pubEnvNoConn : MqttClient.PublishEnv :=
  { now_ensure := 1000, env_ensure := envSuccess, publish_rc := MOSQ_ERR_NO_CONN,
    now_noconn := 1000, env_noconn := envSuccess }

/-- The constructed client after a successful `connect(60)` and `onConnect(0)`. -/
def connectedClient : MqttClient :=
  (run c1Client [Op.connect 60 MOSQ_ERR_SUCCESS MOSQ_ERR_SUCCESS, Op.onConnect 0]).1

/-- The backoff of the test `failure_doubles_backoff` after its first
`schedule_attempt`: bounds 1 and 60, delay 2 s. -/
def backoffAfterOne : ReconnectBackoff := (ReconnectBackoff.new 1 60).schedule_attempt 0 0

/-- A backoff constructed with a negative initial delay, below its ceiling. -/
def negativeBackoff : ReconnectBackoff := ReconnectBackoff.new (-1) 60

/-- A backoff constructed with the initial delay `2^30` and the ceiling `INT_MAX`. -/
def hugeBackoff : ReconnectBackoff := ReconnectBackoff.new 1073741824 INT_MAX

/-- A backoff constructed with an initial delay above its ceiling. -/
def invertedBackoff : ReconnectBackoff := ReconnectBackoff.new 10 5

/-- A backoff constructed with the initial delay `2^30 - 1` and the ceiling `INT_MAX`. -/
def almostHugeBackoff : ReconnectBackoff := ReconnectBackoff.new 1073741823 INT_MAX

/-- The clock reads `1000`, the reconnect primitive would succeed, and
`mosquitto_publish` returns `MOSQ_ERR_INVAL`, its result for a null handle. -/
def pubEnvInval : MqttClient.PublishEnv :=
  { now_ensure := 1000, env_ensure := envSuccess, publish_rc := MOSQ_ERR_INVAL,
    now_noconn := 1000, env_noconn := envSuccess }

/-- The backoff of a client after two attempts: bounds 1 and 60, delay 4 s, next attempt
allowed at 3 s. -/
def backoffAfterTwo : ReconnectBackoff :=
  (ReconnectBackoff.new 1 k_max_backoff_seconds).schedules [(0, 0), (1000000000, 0)]

/-- The statements of `schedule_next` and `reset` taken in turn, the caller first. -/
def alternatingOrder : List ThreadId :=
  [ThreadId.caller, ThreadId.callback, ThreadId.caller, ThreadId.callback, ThreadId.caller]

/-- A reconnect at 1000 ticks, a disconnect notification, a tick half a second later,
a tick one second after the reconnect, a failed connect and a disconnect notification,
and a publish two seconds after the second reconnect. -/
def retryOps : List Op :=
  [Op.tick 1000 envSuccess, Op.onDisconnect 1, Op.tick 500001000 envSuccess,
    Op.tick 1000001000 envSuccess, Op.onConnect 5, Op.onDisconnect 5,
    Op.publish "devices/dev1/telemetry" "payload" 1 false
      { now_ensure := 3000001000, env_ensure := envSuccess, publish_rc := MOSQ_ERR_SUCCESS,
        now_noconn := 3000001000, env_noconn := envSuccess }]

/-- The constructed client after a successful reconnect issued at the tick count
`-20 s`, a time before the epoch of the clock: in flight, start time `-20 s`, delay 2 s. -/
def clientBeforeEpoch : MqttClient := (c1Client.tick (-20000000000) envSuccess).1

/-! ## Lemmas on the backoff and on one tick -/

open MqttClient

theorem wrapInt32_of_small (x : Int) (h1 : -2147483648 ≤ x) (h2 : x < 2147483648) :
    wrapInt32 x = x := by
  unfold wrapInt32; omega

theorem schedule_attempt_inv (b : ReconnectBackoff) (now j : Int) (h : BackoffInv b) :
    BackoffInv (b.schedule_attempt now j) := by
  obtain ⟨h1, h2, h3, h4⟩ := h
  simp only [k_max_backoff_seconds] at h2
  have hw : wrapInt32 (b.backoff_ * 2) = b.backoff_ * 2 := wrapInt32_of_small _ (by omega) (by omega)
  simp only [BackoffInv, ReconnectBackoff.schedule_attempt, ReconnectBackoff.schedule_next, hw,
    k_max_backoff_seconds]
  omega

theorem schedule_attempt_next_gt (b : ReconnectBackoff) (now j : Int) (h : BackoffInv b)
    (hj : JitterOk j) : now < (b.schedule_attempt now j).next_ := by
  obtain ⟨h1, h2, h3, h4⟩ := h
  obtain ⟨hj1, hj2⟩ := hj
  simp only [ReconnectBackoff.schedule_attempt, ReconnectBackoff.schedule_next, ticksPerMilli]
  omega

theorem in_flight_timed_out_early (s : MqttClient) (now : Int)
    (hf : s.reconnect_in_flight_ = true) (hs : s.reconnect_started_ticks_ ≠ 0)
    (hlt : now - s.reconnect_started_ticks_ < k_reconnect_in_flight_timeout) :
    s.in_flight_timed_out_ now = (false, s) := by
  have hnot : ¬ (now - s.reconnect_started_ticks_ ≥ k_reconnect_in_flight_timeout) := by omega
  unfold in_flight_timed_out_
  rw [if_neg (by simp [hf]), if_neg hs, if_neg hnot]

theorem tick_in_flight_early (s : MqttClient) (now : Int) (e : TickEnv)
    (hf : s.reconnect_in_flight_ = true) (hs : s.reconnect_started_ticks_ ≠ 0)
    (hlt : now - s.reconnect_started_ticks_ < k_reconnect_in_flight_timeout) :
    s.tick now e = (s, []) := by
  unfold tick tick_reconnect_
  rw [in_flight_timed_out_early s now hf hs hlt]
  simp [hf]


theorem in_flight_timed_out_late (s : MqttClient) (now : Int)
    (hf : s.reconnect_in_flight_ = true) (hs : s.reconnect_started_ticks_ ≠ 0)
    (hge : now - s.reconnect_started_ticks_ ≥ k_reconnect_in_flight_timeout) :
    s.in_flight_timed_out_ now =
      (true, { s with reconnect_in_flight_ := false, reconnect_started_ticks_ := 0 }) := by
  unfold in_flight_timed_out_
  rw [if_neg (by simp [hf]), if_neg hs, if_pos hge]

theorem in_flight_timed_out_idle (s : MqttClient) (now : Int)
    (hf : s.reconnect_in_flight_ = false) :
    s.in_flight_timed_out_ now = (false, s) := by
  unfold in_flight_timed_out_
  rw [if_pos (by simp [hf])]

theorem can_attempt_false_of_lt (b : ReconnectBackoff) (now : Int) (h0 : 0 ≤ now)
    (hlt : now < b.next_) : b.can_attempt now = false := by
  unfold ReconnectBackoff.can_attempt
  have h1 : b.next_ ≠ 0 := by omega
  have h2 : ¬ (now ≥ b.next_) := by omega
  simp [h1, h2]

theorem tick_in_flight_timeout (s : MqttClient) (now : Int) (e : TickEnv)
    (hstop : s.stopping_ = false) (hconn : s.connected_ = false)
    (hmosq : s.mosq_present = true)
    (hf : s.reconnect_in_flight_ = true) (hs : s.reconnect_started_ticks_ ≠ 0)
    (hge : now - s.reconnect_started_ticks_ ≥ k_reconnect_in_flight_timeout)
    (hinv : BackoffInv s.backoff_) (hj : JitterOk e.jitter_timeout) (h0 : 0 ≤ now) :
    s.tick now e =
      ({ s with
          reconnect_in_flight_ := false
          reconnect_started_ticks_ := 0
          backoff_ := s.backoff_.schedule_attempt now e.jitter_timeout }, []) := by
  have hc := can_attempt_false_of_lt (s.backoff_.schedule_attempt now e.jitter_timeout) now h0
    (schedule_attempt_next_gt s.backoff_ now e.jitter_timeout hinv hj)
  unfold tick tick_reconnect_
  rw [in_flight_timed_out_late s now hf hs hge]
  simp [hstop, hconn, hmosq, has_mosq_, hc]

theorem tick_attempt (s : MqttClient) (now : Int) (e : TickEnv)
    (hstop : s.stopping_ = false) (hconn : s.connected_ = false)
    (hmosq : s.mosq_present = true)
    (hf : s.reconnect_in_flight_ = false) (hc : s.backoff_.can_attempt now = true) :
    s.tick now e = (s.afterAttempt now e.rc e.jitter_attempt, [Effect.reconnect]) := by
  unfold tick tick_reconnect_
  rw [in_flight_timed_out_idle s now hf]
  simp only [hstop, hconn, hmosq, has_mosq_, hf, hc, MqttClient.afterAttempt]
  by_cases hrc : e.rc = MOSQ_ERR_SUCCESS <;> simp [hrc, hf, hc, hstop, hconn, hmosq]

theorem in_flight_timed_out_sentinel (s : MqttClient) (now : Int)
    (hf : s.reconnect_in_flight_ = true) (hs : s.reconnect_started_ticks_ = 0) :
    s.in_flight_timed_out_ now = (true, { s with reconnect_in_flight_ := false }) := by
  unfold in_flight_timed_out_
  rw [if_neg (by simp [hf]), if_pos hs]

theorem tick_in_flight_sentinel (s : MqttClient) (now : Int) (e : TickEnv)
    (hstop : s.stopping_ = false) (hconn : s.connected_ = false)
    (hmosq : s.mosq_present = true)
    (hf : s.reconnect_in_flight_ = true) (hs : s.reconnect_started_ticks_ = 0)
    (hinv : BackoffInv s.backoff_) (hj : JitterOk e.jitter_timeout) (h0 : 0 ≤ now) :
    s.tick now e =
      ({ s with
          reconnect_in_flight_ := false
          backoff_ := s.backoff_.schedule_attempt now e.jitter_timeout }, []) := by
  have hc := can_attempt_false_of_lt (s.backoff_.schedule_attempt now e.jitter_timeout) now h0
    (schedule_attempt_next_gt s.backoff_ now e.jitter_timeout hinv hj)
  unfold tick tick_reconnect_
  rw [in_flight_timed_out_sentinel s now hf hs]
  simp [hstop, hconn, hmosq, has_mosq_, hc]

theorem tick_idle_blocked (s : MqttClient) (now : Int) (e : TickEnv)
    (hf : s.reconnect_in_flight_ = false) (hc : s.backoff_.can_attempt now = false) :
    s.tick now e = (s, []) := by
  unfold tick tick_reconnect_
  rw [in_flight_timed_out_idle s now hf]
  simp [hf, hc]

theorem can_attempt_of_ge (b : ReconnectBackoff) (t : Int) (h : t ≥ b.next_) :
    b.can_attempt t = true := by
  unfold ReconnectBackoff.can_attempt
  simp [h]

theorem afterAttempt_success (s : MqttClient) (now j : Int) :
    s.afterAttempt now MOSQ_ERR_SUCCESS j =
      { s with
        reconnects_ := (s.reconnects_ + 1) % 18446744073709551616
        reconnect_started_ticks_ := now
        reconnect_in_flight_ := true
        backoff_ := s.backoff_.schedule_attempt now j } := by
  simp [MqttClient.afterAttempt]

/-- A tick that called the reconnect primitive, on a client whose backoff is the
production one and at a positive clock reading, started from a state that was not in
flight and whose backoff allowed the attempt. -/
theorem tick_issued_from_idle (s : MqttClient) (now : Int) (e : TickEnv)
    (hstop : s.stopping_ = false) (hconn : s.connected_ = false)
    (hmosq : s.mosq_present = true)
    (hinv : BackoffInv s.backoff_) (hj : JitterOk e.jitter_timeout) (h0 : 0 ≤ now)
    (hissued : reconnectCalls (s.tick now e).2 = 1) :
    s.reconnect_in_flight_ = false ∧ s.backoff_.can_attempt now = true := by
  by_cases hf : s.reconnect_in_flight_ = true
  · exfalso
    by_cases hs : s.reconnect_started_ticks_ = 0
    · rw [tick_in_flight_sentinel s now e hstop hconn hmosq hf hs hinv hj h0] at hissued
      simp [reconnectCalls] at hissued
    · by_cases hge : now - s.reconnect_started_ticks_ ≥ k_reconnect_in_flight_timeout
      · rw [tick_in_flight_timeout s now e hstop hconn hmosq hf hs hge hinv hj h0] at hissued
        simp [reconnectCalls] at hissued
      · rw [tick_in_flight_early s now e hf hs (by omega)] at hissued
        simp [reconnectCalls] at hissued
  · have hf2 : s.reconnect_in_flight_ = false := by simpa using hf
    refine ⟨hf2, ?_⟩
    by_cases hc : s.backoff_.can_attempt now = true
    · exact hc
    · exfalso
      rw [tick_idle_blocked s now e hf2 (by simpa using hc)] at hissued
      simp [reconnectCalls] at hissued

theorem ticks_early (s : MqttClient) (early : List (Int × TickEnv))
    (hf : s.reconnect_in_flight_ = true) (hs : s.reconnect_started_ticks_ ≠ 0)
    (hlt : ∀ p ∈ early, p.1 - s.reconnect_started_ticks_ < k_reconnect_in_flight_timeout) :
    ticks s early = (s, []) := by
  induction early with
  | nil => rfl
  | cons p rest ih =>
    obtain ⟨now, e⟩ := p
    have h1 := tick_in_flight_early s now e hf hs (hlt (now, e) (List.mem_cons_self _ _))
    have h2 := ih (fun q hq => hlt q (List.mem_cons_of_mem _ hq))
    simp [ticks, h1, h2]

theorem tick_calls_once_of_ge (s : MqttClient) (t : Int) (e : TickEnv)
    (hstop : s.stopping_ = false) (hconn : s.connected_ = false)
    (hmosq : s.mosq_present = true) (hf : s.reconnect_in_flight_ = false)
    (hge : t ≥ s.backoff_.next_time) : reconnectCalls (s.tick t e).2 = 1 := by
  rw [tick_attempt s t e hstop hconn hmosq hf (can_attempt_of_ge _ t hge)]
  simp [reconnectCalls]

/-! ## C1: in-flight timeout, then one retry -/

/-- C1, as stated, fails when the successful reconnect is issued at the clock reading
`t0 = 0`: the start time stored is the tick count `0`, which `in_flight_timed_out_` reads
as "no start time", so the tick that follows at `now = 0` clears the in-flight flag and the
tick at 3 s (`3 s - t0 < 15 s`) calls the reconnect primitive. -/
theorem C1_counterexample_start_at_epoch :
    (c1Client.mosq_present = true ∧ c1Client.stopping_ = false ∧ c1Client.connected_ = false)
    ∧ reconnectCalls (c1Client.tick 0 envSuccess).2 = 1
    ∧ (0 - 0 < k_reconnect_in_flight_timeout ∧ 3000000000 - 0 < k_reconnect_in_flight_timeout)
    ∧ ((c1Client.tick 0 envSuccess).1.tick 0 envSuccess).1.reconnect_in_flight_ = false
    ∧ reconnectCalls
        (((c1Client.tick 0 envSuccess).1.tick 0 envSuccess).1.tick 3000000000 envSuccess).2 = 1
    ∧ reconnectCalls
        (ticks (c1Client.tick 0 envSuccess).1 [(0, envSuccess), (3000000000, envSuccess)]).2
        ≠ 0 := by
  decide

/-- C1 (amended): let a tick at a clock reading `t0 > 0` have issued a successful
reconnect from a state with the handle present, not stopping and not connected, and let
`s1` be the state it left.  Then (a) any sequence of ticks at times `now` with
`now - t0 < 15 s` leaves `s1` as it is and calls nothing; (b) a tick at a time `now` with
`now - t0 >= 15 s` clears the in-flight flag, calls the reconnect primitive zero times and
applies one `schedule_attempt(now)`, after which `next_time()` is past `now`; and (c) the
next tick at any time `>= next_time()` calls the reconnect primitive exactly once. -/
theorem C1_in_flight_timeout_then_one_retry (s0 s1 : MqttClient) (t0 : Int) (e0 : TickEnv)
    (hmosq : s0.mosq_present = true) (hstop : s0.stopping_ = false)
    (hconn : s0.connected_ = false) (hinv : BackoffInv s0.backoff_) (hj0 : e0.JitterOk)
    (ht0 : 0 < t0)
    (hissued : reconnectCalls (s0.tick t0 e0).2 = 1) (hok : e0.rc = MOSQ_ERR_SUCCESS)
    (hs1 : s1 = (s0.tick t0 e0).1) :
    (∀ early : List (Int × TickEnv),
        (∀ p ∈ early, p.1 - t0 < k_reconnect_in_flight_timeout) → ticks s1 early = (s1, []))
    ∧ (∀ (now : Int) (e : TickEnv), now - t0 ≥ k_reconnect_in_flight_timeout → e.JitterOk →
        (s1.tick now e).1.reconnect_in_flight_ = false
        ∧ reconnectCalls (s1.tick now e).2 = 0
        ∧ (s1.tick now e).1.backoff_ = s1.backoff_.schedule_attempt now e.jitter_timeout
        ∧ now < (s1.tick now e).1.backoff_.next_time
        ∧ ∀ (t : Int) (e2 : TickEnv), t ≥ (s1.tick now e).1.backoff_.next_time →
            reconnectCalls ((s1.tick now e).1.tick t e2).2 = 1) := by
  obtain ⟨hf0, hc0⟩ :=
    tick_issued_from_idle s0 t0 e0 hstop hconn hmosq hinv hj0.1 (le_of_lt ht0) hissued
  rw [tick_attempt s0 t0 e0 hstop hconn hmosq hf0 hc0, hok, afterAttempt_success] at hs1
  have hinv1 : BackoffInv s1.backoff_ := by
    rw [hs1]; exact schedule_attempt_inv _ _ _ hinv
  have hf1 : s1.reconnect_in_flight_ = true := by rw [hs1]
  have hst1 : s1.reconnect_started_ticks_ = t0 := by rw [hs1]
  have hstop1 : s1.stopping_ = false := by rw [hs1]; exact hstop
  have hconn1 : s1.connected_ = false := by rw [hs1]; exact hconn
  have hmosq1 : s1.mosq_present = true := by rw [hs1]; exact hmosq
  have hne : s1.reconnect_started_ticks_ ≠ 0 := by rw [hst1]; omega
  refine ⟨?_, ?_⟩
  · intro early hearly
    exact ticks_early s1 early hf1 hne (by rw [hst1]; exact hearly)
  · intro now e hge hj
    have hk : k_reconnect_in_flight_timeout = 15000000000 := by decide
    have hnow : 0 ≤ now := by rw [hk] at hge; omega
    have ht := tick_in_flight_timeout s1 now e hstop1 hconn1 hmosq1 hf1 hne
      (by rw [hst1]; exact hge) hinv1 hj.1 hnow
    rw [ht]
    refine ⟨rfl, by simp [reconnectCalls], rfl, ?_, ?_⟩
    · exact schedule_attempt_next_gt s1.backoff_ now e.jitter_timeout hinv1 hj.1
    · intro t e2 hte
      refine tick_calls_once_of_ge _ t e2 ?_ ?_ ?_ ?_ hte
      · exact hstop1
      · exact hconn1
      · exact hmosq1
      · rfl

/-- C1 (amended) at the scenario of the test `in_flight_timeout_clears_gate_and_retries`
with the first tick at `t0 = 1000`. -/
theorem C1_in_flight_timeout_then_one_retry_witness :
    (∀ early : List (Int × TickEnv),
        (∀ p ∈ early, p.1 - 1000 < k_reconnect_in_flight_timeout) →
          ticks (c1Client.tick 1000 envSuccess).1 early = ((c1Client.tick 1000 envSuccess).1, []))
    ∧ (∀ (now : Int) (e : TickEnv), now - 1000 ≥ k_reconnect_in_flight_timeout → e.JitterOk →
        ((c1Client.tick 1000 envSuccess).1.tick now e).1.reconnect_in_flight_ = false
        ∧ reconnectCalls ((c1Client.tick 1000 envSuccess).1.tick now e).2 = 0
        ∧ ((c1Client.tick 1000 envSuccess).1.tick now e).1.backoff_ =
            (c1Client.tick 1000 envSuccess).1.backoff_.schedule_attempt now e.jitter_timeout
        ∧ now < ((c1Client.tick 1000 envSuccess).1.tick now e).1.backoff_.next_time
        ∧ ∀ (t : Int) (e2 : TickEnv),
            t ≥ ((c1Client.tick 1000 envSuccess).1.tick now e).1.backoff_.next_time →
            reconnectCalls (((c1Client.tick 1000 envSuccess).1.tick now e).1.tick t e2).2 = 1) :=
  C1_in_flight_timeout_then_one_retry c1Client (c1Client.tick 1000 envSuccess).1 1000 envSuccess
    (by decide) (by decide) (by decide) (by decide) (by decide) (by decide) (by decide)
    (by decide) rfl

/-! ## C2: the in-flight gate of a tick -/

theorem tick_in_flight_timeout_of_ne (s : MqttClient) (now : Int) (e : TickEnv)
    (hstop : s.stopping_ = false) (hconn : s.connected_ = false)
    (hmosq : s.mosq_present = true)
    (hf : s.reconnect_in_flight_ = true) (hs : s.reconnect_started_ticks_ ≠ 0)
    (hge : now - s.reconnect_started_ticks_ ≥ k_reconnect_in_flight_timeout)
    (hinv : BackoffInv s.backoff_) (hj : JitterOk e.jitter_timeout)
    (hne : (s.backoff_.schedule_attempt now e.jitter_timeout).next_ ≠ 0) :
    s.tick now e =
      ({ s with
          reconnect_in_flight_ := false
          reconnect_started_ticks_ := 0
          backoff_ := s.backoff_.schedule_attempt now e.jitter_timeout }, []) := by
  have hlt := schedule_attempt_next_gt s.backoff_ now e.jitter_timeout hinv hj
  have hnge : ¬ (now ≥ (s.backoff_.schedule_attempt now e.jitter_timeout).next_) := by omega
  have hc : (s.backoff_.schedule_attempt now e.jitter_timeout).can_attempt now = false := by
    simp [ReconnectBackoff.can_attempt, hne, hnge]
  unfold tick tick_reconnect_
  rw [in_flight_timed_out_late s now hf hs hge]
  simp [hstop, hconn, hmosq, has_mosq_, hc]

/-- C2, as stated, fails for a time `now` before the epoch of the clock at which
`now + delay + jitter` is the tick count `0`: the client in flight since `-20 s` (a
recorded start time) with delay 2 s, ticked at `now = -2 s` (18 s later), stores
`next_ = 0`, which `can_attempt` reads as "nothing scheduled", so the same tick calls the
reconnect primitive, sets the in-flight flag again and records the start time `-2 s`. -/
theorem C2_counterexample_before_epoch :
    clientBeforeEpoch.mosq_present = true ∧ clientBeforeEpoch.stopping_ = false
    ∧ clientBeforeEpoch.connected_ = false ∧ clientBeforeEpoch.reconnect_in_flight_ = true
    ∧ clientBeforeEpoch.reconnect_started_ticks_ = -20000000000
    ∧ -2000000000 - clientBeforeEpoch.reconnect_started_ticks_ ≥ k_reconnect_in_flight_timeout
    ∧ (clientBeforeEpoch.backoff_.schedule_attempt (-2000000000) 0).next_time = 0
    ∧ (clientBeforeEpoch.tick (-2000000000) envSuccess).1.reconnect_in_flight_ = true
    ∧ (clientBeforeEpoch.tick (-2000000000) envSuccess).1.reconnect_started_ticks_
        = -2000000000
    ∧ reconnectCalls (clientBeforeEpoch.tick (-2000000000) envSuccess).2 = 1
    ∧ (clientBeforeEpoch.tick (-2000000000) envSuccess).1.backoff_
        ≠ clientBeforeEpoch.backoff_.schedule_attempt (-2000000000) 0 := by
  decide

/-- C2 (amended): in a state with the handle present, not stopping, not connected, in
flight and with a recorded start time (`reconnect_started_ticks_ != 0`), and for a time
`now` that is not negative or, more generally, for which the time `schedule_attempt(now)`
stores is not the tick count `0`: a tick at `now` with `now - started >= 15 s` clears the
in-flight flag and the start time and applies `schedule_attempt(now)` to the backoff; a
tick with `now - started < 15 s` calls no reconnect and leaves the in-flight flag, the
start time, the counter and the backoff (in fact the whole state) unchanged.  The backoff
is the client's (`BackoffInv`) and the jitter is drawn from `[0, 200]`. -/
theorem C2_tick_in_flight_gate (s : MqttClient) (now : Int) (e : TickEnv)
    (hmosq : s.mosq_present = true) (hstop : s.stopping_ = false)
    (hconn : s.connected_ = false) (hf : s.reconnect_in_flight_ = true)
    (hs : s.reconnect_started_ticks_ ≠ 0)
    (hinv : BackoffInv s.backoff_) (hj : e.JitterOk)
    (hclock : 0 ≤ now ∨ (s.backoff_.schedule_attempt now e.jitter_timeout).next_time ≠ 0) :
    (now - s.reconnect_started_ticks_ ≥ k_reconnect_in_flight_timeout →
        (s.tick now e).1.reconnect_in_flight_ = false
        ∧ (s.tick now e).1.reconnect_started_ticks_ = 0
        ∧ (s.tick now e).1.backoff_ = s.backoff_.schedule_attempt now e.jitter_timeout)
    ∧ (now - s.reconnect_started_ticks_ < k_reconnect_in_flight_timeout →
        reconnectCalls (s.tick now e).2 = 0
        ∧ (s.tick now e).1.reconnect_in_flight_ = s.reconnect_in_flight_
        ∧ (s.tick now e).1.reconnect_started_ticks_ = s.reconnect_started_ticks_
        ∧ (s.tick now e).1.reconnects_ = s.reconnects_
        ∧ (s.tick now e).1.backoff_ = s.backoff_
        ∧ (s.tick now e).1 = s) := by
  have hne : (s.backoff_.schedule_attempt now e.jitter_timeout).next_ ≠ 0 := by
    rcases hclock with h0 | h
    · have hlt := schedule_attempt_next_gt s.backoff_ now e.jitter_timeout hinv hj.1
      omega
    · exact h
  refine ⟨?_, ?_⟩
  · intro hge
    rw [tick_in_flight_timeout_of_ne s now e hstop hconn hmosq hf hs hge hinv hj.1 hne]
    exact ⟨rfl, rfl, rfl⟩
  · intro hlt
    rw [tick_in_flight_early s now e hf hs hlt]
    exact ⟨by simp [reconnectCalls], rfl, rfl, rfl, rfl, rfl⟩

/-- C2 (amended) at the state left by a successful reconnect at `t0 = 1000`, ticked 20 s
later. -/
theorem C2_tick_in_flight_gate_witness :
    (20000001000 - (c1Client.tick 1000 envSuccess).1.reconnect_started_ticks_
          ≥ k_reconnect_in_flight_timeout →
        ((c1Client.tick 1000 envSuccess).1.tick 20000001000 envSuccess).1.reconnect_in_flight_
          = false
        ∧ ((c1Client.tick 1000 envSuccess).1.tick 20000001000
            envSuccess).1.reconnect_started_ticks_ = 0
        ∧ ((c1Client.tick 1000 envSuccess).1.tick 20000001000 envSuccess).1.backoff_
          = (c1Client.tick 1000 envSuccess).1.backoff_.schedule_attempt 20000001000
              envSuccess.jitter_timeout)
    ∧ (20000001000 - (c1Client.tick 1000 envSuccess).1.reconnect_started_ticks_
          < k_reconnect_in_flight_timeout →
        reconnectCalls ((c1Client.tick 1000 envSuccess).1.tick 20000001000 envSuccess).2 = 0
        ∧ ((c1Client.tick 1000 envSuccess).1.tick 20000001000 envSuccess).1.reconnect_in_flight_
          = (c1Client.tick 1000 envSuccess).1.reconnect_in_flight_
        ∧ ((c1Client.tick 1000 envSuccess).1.tick 20000001000
            envSuccess).1.reconnect_started_ticks_
          = (c1Client.tick 1000 envSuccess).1.reconnect_started_ticks_
        ∧ ((c1Client.tick 1000 envSuccess).1.tick 20000001000 envSuccess).1.reconnects_
          = (c1Client.tick 1000 envSuccess).1.reconnects_
        ∧ ((c1Client.tick 1000 envSuccess).1.tick 20000001000 envSuccess).1.backoff_
          = (c1Client.tick 1000 envSuccess).1.backoff_
        ∧ ((c1Client.tick 1000 envSuccess).1.tick 20000001000 envSuccess).1
          = (c1Client.tick 1000 envSuccess).1) :=
  C2_tick_in_flight_gate (c1Client.tick 1000 envSuccess).1 20000001000 envSuccess
    (by decide) (by decide) (by decide) (by decide) (by decide) (by decide) (by decide)
    (Or.inl (by decide))

/-! ## C3: the attempt of a tick -/

/-- C3: in a state with the handle present, not stopping, not connected, not in flight
and with `can_attempt(now)` true, a tick calls the reconnect primitive exactly once (and
nothing else) and applies `schedule_attempt(now)` exactly once whatever the call returned.
On `MOSQ_ERR_SUCCESS` the `uint64_t` counter is incremented by one, the start time
becomes `now` and the in-flight flag becomes true; on an error the counter, the start
time, the in-flight flag and the connected flag are unchanged. -/
theorem C3_tick_attempt (s : MqttClient) (now : Int) (e : TickEnv)
    (hmosq : s.mosq_present = true) (hstop : s.stopping_ = false)
    (hconn : s.connected_ = false) (hf : s.reconnect_in_flight_ = false)
    (hc : s.backoff_.can_attempt now = true) :
    (s.tick now e).2 = [Effect.reconnect]
    ∧ reconnectCalls (s.tick now e).2 = 1
    ∧ (s.tick now e).1.backoff_ = s.backoff_.schedule_attempt now e.jitter_attempt
    ∧ (e.rc = MOSQ_ERR_SUCCESS →
        (s.tick now e).1.reconnects_ = (s.reconnects_ + 1) % 18446744073709551616
        ∧ (s.reconnects_ + 1 < 18446744073709551616 →
            (s.tick now e).1.reconnects_ = s.reconnects_ + 1)
        ∧ (s.tick now e).1.reconnect_started_ticks_ = now
        ∧ (s.tick now e).1.reconnect_in_flight_ = true)
    ∧ (e.rc ≠ MOSQ_ERR_SUCCESS →
        (s.tick now e).1.reconnects_ = s.reconnects_
        ∧ (s.tick now e).1.reconnect_started_ticks_ = s.reconnect_started_ticks_
        ∧ (s.tick now e).1.reconnect_in_flight_ = s.reconnect_in_flight_
        ∧ (s.tick now e).1.connected_ = s.connected_) := by
  rw [tick_attempt s now e hstop hconn hmosq hf hc]
  refine ⟨rfl, by simp [reconnectCalls], ?_, ?_, ?_⟩
  · by_cases hrc : e.rc = MOSQ_ERR_SUCCESS <;> simp [MqttClient.afterAttempt, hrc]
  · intro hrc
    simp only [MqttClient.afterAttempt, hrc, if_true]
    exact ⟨trivial, fun h => Nat.mod_eq_of_lt h, trivial, trivial⟩
  · intro hrc
    simp [MqttClient.afterAttempt, hrc]

/-- C3 at the constructed client, first tick at `now = 1000`. -/
theorem C3_tick_attempt_witness :
    (c1Client.tick 1000 envSuccess).2 = [Effect.reconnect]
    ∧ reconnectCalls (c1Client.tick 1000 envSuccess).2 = 1
    ∧ (c1Client.tick 1000 envSuccess).1.backoff_
        = c1Client.backoff_.schedule_attempt 1000 envSuccess.jitter_attempt
    ∧ (envSuccess.rc = MOSQ_ERR_SUCCESS →
        (c1Client.tick 1000 envSuccess).1.reconnects_
          = (c1Client.reconnects_ + 1) % 18446744073709551616
        ∧ (c1Client.reconnects_ + 1 < 18446744073709551616 →
            (c1Client.tick 1000 envSuccess).1.reconnects_ = c1Client.reconnects_ + 1)
        ∧ (c1Client.tick 1000 envSuccess).1.reconnect_started_ticks_ = 1000
        ∧ (c1Client.tick 1000 envSuccess).1.reconnect_in_flight_ = true)
    ∧ (envSuccess.rc ≠ MOSQ_ERR_SUCCESS →
        (c1Client.tick 1000 envSuccess).1.reconnects_ = c1Client.reconnects_
        ∧ (c1Client.tick 1000 envSuccess).1.reconnect_started_ticks_
          = c1Client.reconnect_started_ticks_
        ∧ (c1Client.tick 1000 envSuccess).1.reconnect_in_flight_
          = c1Client.reconnect_in_flight_
        ∧ (c1Client.tick 1000 envSuccess).1.connected_ = c1Client.connected_) :=
  C3_tick_attempt c1Client 1000 envSuccess (by decide) (by decide) (by decide) (by decide)
    (by decide)

/-! ## C4: a stopping or connected client does not reconnect -/

theorem tick_stopping (s : MqttClient) (now : Int) (e : TickEnv)
    (h : s.stopping_ = true) : s.tick now e = (s, []) := by
  simp [tick, tick_reconnect_, h]

theorem tick_connected (s : MqttClient) (now : Int) (e : TickEnv)
    (h : s.connected_ = true) : s.tick now e = (s, []) := by
  simp [tick, tick_reconnect_, h]

theorem success_ne_no_conn : ¬ (MOSQ_ERR_SUCCESS = MOSQ_ERR_NO_CONN) := by decide

theorem stop_sets_stopping (s : MqttClient) : (s.stop).1.stopping_ = true := by
  rcases s with ⟨mosq, conn, stopg, loop, infl, started, rec, b, st, wp, op, q⟩
  cases stopg <;> cases mosq <;> cases loop <;> simp [stop, has_mosq_]

theorem publish_stopping (s : MqttClient) (topic payload : String) (qos : Int)
    (retain : Bool) (e : PublishEnv) (h : s.stopping_ = true) :
    (s.publish topic payload qos retain e).2.1.stopping_ = true
    ∧ reconnectCalls (s.publish topic payload qos retain e).2.2 = 0 := by
  rcases s with ⟨mosq, conn, stopg, loop, infl, started, rec, b, st, wp, op, q⟩
  simp only at h
  subst h
  by_cases h1 : e.publish_rc = MOSQ_ERR_NO_CONN
  · cases conn <;>
      simp [publish, ensure_connected, tick_reconnect_, reconnectCalls, h1]
  · by_cases h2 : e.publish_rc = MOSQ_ERR_SUCCESS <;> cases conn <;>
      simp [publish, ensure_connected, tick_reconnect_, reconnectCalls, h1, h2,
        success_ne_no_conn]

/-- Every call leaves a set stopping flag set and, with the flag set, calls no reconnect. -/
theorem step_stopping (s : MqttClient) (op : Op) (h : s.stopping_ = true) :
    (step s op).1.stopping_ = true ∧ reconnectCalls (step s op).2 = 0 := by
  cases op with
  | tick now e => simp [step, tick_stopping s now e h, h, reconnectCalls]
  | publish topic payload qos retain e => exact publish_stopping s topic payload qos retain e h
  | onConnect rc =>
    rcases s with ⟨mosq, conn, stopg, loop, infl, started, rec, b, st, wp, op, q⟩
    simp only at h
    subst h
    by_cases hrc : rc = 0 <;> cases mosq <;>
      simp [step, on_connect, publish_status_, has_mosq_, hrc, reconnectCalls]
  | onDisconnect rc => simp [step, on_disconnect, h, reconnectCalls]
  | stop => simp [step, stop, h, reconnectCalls]
  | connect k rc1 rc2 =>
    rcases s with ⟨mosq, conn, stopg, loop, infl, started, rec, b, st, wp, op, q⟩
    simp only at h
    subst h
    by_cases h1 : rc1 = MOSQ_ERR_SUCCESS <;> by_cases h2 : rc2 = MOSQ_ERR_SUCCESS <;>
      cases mosq <;> cases loop <;>
      simp [step, connect, has_mosq_, h1, h2, reconnectCalls]

theorem run_stopping (s : MqttClient) (ops : List Op) (h : s.stopping_ = true) :
    (run s ops).1.stopping_ = true ∧ reconnectCalls (run s ops).2 = 0 := by
  induction ops generalizing s with
  | nil => simp [run, h, reconnectCalls]
  | cons op rest ih =>
    obtain ⟨h1, h2⟩ := step_stopping s op h
    obtain ⟨h3, h4⟩ := ih (step s op).1 h1
    refine ⟨h3, ?_⟩
    simp only [run, reconnectCalls, List.count_append] at *
    omega

/-- C4: with stopping set or connected set, a tick calls nothing and returns the state
it was given, every field unchanged; `stop()` sets the stopping flag whatever the state,
no call clears it, and after `stop()` no sequence of tick, publish, onConnect,
onDisconnect, stop and connect calls ever calls the reconnect primitive. -/
theorem C4_no_reconnect_when_stopping_or_connected :
    (∀ (s : MqttClient) (now : Int) (e : TickEnv),
        (s.stopping_ = true ∨ s.connected_ = true) → s.tick now e = (s, []))
    ∧ (∀ (s : MqttClient) (ops : List Op),
        (s.stop).1.stopping_ = true
        ∧ (run (s.stop).1 ops).1.stopping_ = true
        ∧ reconnectCalls (run (s.stop).1 ops).2 = 0) := by
  refine ⟨?_, ?_⟩
  · intro s now e h
    rcases h with h | h
    · exact tick_stopping s now e h
    · exact tick_connected s now e h
  · intro s ops
    have h := stop_sets_stopping s
    exact ⟨h, run_stopping _ ops h⟩

/-- C4 at the constructed client after `stop()`: a tick at a time the backoff allows
returns the state unchanged and calls nothing. -/
theorem C4_no_reconnect_when_stopping_or_connected_witness :
    ((c1Client.stop).1.stopping_ = true ∨ (c1Client.stop).1.connected_ = true)
    ∧ (c1Client.stop).1.tick 1000 envSuccess = ((c1Client.stop).1, []) :=
  ⟨by decide,
    C4_no_reconnect_when_stopping_or_connected.1 (c1Client.stop).1 1000 envSuccess
      (by decide)⟩

/-! ## C5: a successful connect resets the backoff -/

/-- C5, as stated, fails in a state in which `stop()` has been called: after
`onConnect(0)` and `onDisconnect(1)` the next tick returns at the stopping check and calls
the reconnect primitive zero times; it fails in the same way without a handle. -/
theorem C5_counterexample_stopping :
    reconnectCalls
        ((((c1Client.stop).1.on_connect 0).1.on_disconnect 1).1.tick 1000 envSuccess).2 = 0
    ∧ reconnectCalls (run (c1Client.stop).1
        [Op.onConnect 0, Op.onDisconnect 1, Op.tick 1000 envSuccess]).2 ≠ 1
    ∧ reconnectCalls
        ((((MqttClient.init false "" "" "" 0).on_connect 0).1.on_disconnect 1).1.tick 1000
          envSuccess).2 = 0 := by
  decide

/-- C5 (amended): in every state `onConnect(0)` leaves connected set, the in-flight flag
and the start time cleared, `backoff_seconds()` equal to the initial delay and
`can_attempt(t)` true for every `t`; and if the handle is present and `stop()` has not
been called, then after a following `onDisconnect(rc)` the next tick, at any time, calls
the reconnect primitive exactly once. -/
theorem C5_on_connect_resets_backoff (s : MqttClient) :
    (s.on_connect 0).1.connected_ = true
    ∧ (s.on_connect 0).1.reconnect_in_flight_ = false
    ∧ (s.on_connect 0).1.reconnect_started_ticks_ = 0
    ∧ (s.on_connect 0).1.backoff_.backoff_seconds = s.backoff_.initial_
    ∧ (∀ t : Int, (s.on_connect 0).1.backoff_.can_attempt t = true)
    ∧ (s.mosq_present = true → s.stopping_ = false →
        ∀ (rc now : Int) (e : TickEnv),
          reconnectCalls (((s.on_connect 0).1.on_disconnect rc).1.tick now e).2 = 1) := by
  refine ⟨by simp [on_connect], by simp [on_connect], by simp [on_connect],
    by simp [on_connect, ReconnectBackoff.reset, ReconnectBackoff.backoff_seconds],
    by simp [on_connect, ReconnectBackoff.reset, ReconnectBackoff.can_attempt], ?_⟩
  intro hmosq hstop rc now e
  rw [tick_attempt _ now e (by simpa [on_connect, on_disconnect] using hstop)
    (by simp [on_disconnect]) (by simpa [on_connect, on_disconnect] using hmosq)
    (by simp [on_disconnect])
    (by simp [on_connect, on_disconnect, ReconnectBackoff.reset, ReconnectBackoff.can_attempt])]
  simp [reconnectCalls]

/-- C5 (amended) at the scenario of the test
`on_connect_resets_backoff_and_clears_in_flight`: tick, `onConnect(0)`, `onDisconnect(1)`
and a tick at the same instant. -/
theorem C5_on_connect_resets_backoff_witness :
    (c1Client.tick 1000 envSuccess).1.mosq_present = true
    ∧ (c1Client.tick 1000 envSuccess).1.stopping_ = false
    ∧ reconnectCalls
        ((((c1Client.tick 1000 envSuccess).1.on_connect 0).1.on_disconnect 1).1.tick 1000
          envSuccess).2 = 1 :=
  ⟨by decide, by decide,
    (C5_on_connect_resets_backoff (c1Client.tick 1000 envSuccess).1).2.2.2.2.2
      (by decide) (by decide) 1 1000 envSuccess⟩

/-! ## C6: a failed connect -/

/-- C6, as stated, fails: `on_connect` with a non-zero result code stores only
`connected_ = false`.  In the state left by a successful reconnect at `t0 = 1000`,
`onConnect(5)` leaves the in-flight flag set, and a tick two seconds later, which the
backoff allows, calls nothing because of the in-flight flag. -/
theorem C6_counterexample_in_flight_kept :
    (c1Client.tick 1000 envSuccess).1.connected_ = false
    ∧ (c1Client.tick 1000 envSuccess).1.reconnect_in_flight_ = true
    ∧ ((c1Client.tick 1000 envSuccess).1.on_connect 5).1.reconnect_in_flight_ = true
    ∧ ((c1Client.tick 1000 envSuccess).1.on_connect 5).1.backoff_.can_attempt 2000001000 = true
    ∧ reconnectCalls
        (((c1Client.tick 1000 envSuccess).1.on_connect 5).1.tick 2000001000 envSuccess).2 = 0 := by
  decide

/-- C6 (amended): for every non-zero result code `rc`, `onConnect(rc)` stores
`connected_ = false`, calls nothing and changes no other field; in the Connecting phase
the in-flight flag therefore stays set, and a following tick before the 15 s in-flight
timeout of a recorded start time calls nothing and changes nothing, whatever the
backoff allows. -/
theorem C6_on_connect_failure_keeps_in_flight (s : MqttClient) (rc : Int) (hrc : rc ≠ 0) :
    s.on_connect rc = ({ s with connected_ := false }, [])
    ∧ (s.on_connect rc).1.connected_ = false
    ∧ (s.on_connect rc).1.reconnect_in_flight_ = s.reconnect_in_flight_
    ∧ (s.reconnect_in_flight_ = true → s.reconnect_started_ticks_ ≠ 0 →
        ∀ (now : Int) (e : TickEnv),
          now - s.reconnect_started_ticks_ < k_reconnect_in_flight_timeout →
          (s.on_connect rc).1.tick now e = ((s.on_connect rc).1, [])) := by
  have h : s.on_connect rc = ({ s with connected_ := false }, []) := by
    simp [on_connect, hrc]
  refine ⟨h, by rw [h], by rw [h], ?_⟩
  intro hf hs now e hlt
  rw [h]
  exact tick_in_flight_early _ now e hf hs hlt

/-- C6 (amended) at the state left by a successful reconnect at `t0 = 1000`, with
`rc = 5`. -/
theorem C6_on_connect_failure_keeps_in_flight_witness :
    (c1Client.tick 1000 envSuccess).1.on_connect 5
        = ({ (c1Client.tick 1000 envSuccess).1 with connected_ := false }, [])
    ∧ ((c1Client.tick 1000 envSuccess).1.on_connect 5).1.connected_ = false
    ∧ ((c1Client.tick 1000 envSuccess).1.on_connect 5).1.reconnect_in_flight_
        = (c1Client.tick 1000 envSuccess).1.reconnect_in_flight_
    ∧ ((c1Client.tick 1000 envSuccess).1.reconnect_in_flight_ = true →
        (c1Client.tick 1000 envSuccess).1.reconnect_started_ticks_ ≠ 0 →
        ∀ (now : Int) (e : TickEnv),
          now - (c1Client.tick 1000 envSuccess).1.reconnect_started_ticks_
            < k_reconnect_in_flight_timeout →
          ((c1Client.tick 1000 envSuccess).1.on_connect 5).1.tick now e
            = (((c1Client.tick 1000 envSuccess).1.on_connect 5).1, [])) :=
  C6_on_connect_failure_keeps_in_flight (c1Client.tick 1000 envSuccess).1 5 (by decide)

/-! ## C7: a disconnect -/

/-- C7: for every state and every result code `rc`, zero included, `onDisconnect(rc)`
leaves connected false, the in-flight flag false and the start time cleared, calls
nothing, and changes neither the stopping flag, the reconnect counter nor the backoff
(nor any other field). -/
theorem C7_on_disconnect_frame (s : MqttClient) (rc : Int) :
    (s.on_disconnect rc).1.connected_ = false
    ∧ (s.on_disconnect rc).1.reconnect_in_flight_ = false
    ∧ (s.on_disconnect rc).1.reconnect_started_ticks_ = 0
    ∧ (s.on_disconnect rc).1.stopping_ = s.stopping_
    ∧ (s.on_disconnect rc).1.reconnects_ = s.reconnects_
    ∧ (s.on_disconnect rc).1.backoff_ = s.backoff_
    ∧ (s.on_disconnect rc).2 = []
    ∧ (s.on_disconnect rc).1 =
        { s with
          connected_ := false, reconnect_in_flight_ := false, reconnect_started_ticks_ := 0 } :=
  ⟨rfl, rfl, rfl, rfl, rfl, rfl, rfl, rfl⟩

/-! ## C8, C9: publish -/

/-- A tick calls the reconnect primitive at most once and nothing else, and never
writes the connected flag. -/
theorem tick_trace (s : MqttClient) (now : Int) (e : TickEnv) :
    ((s.tick now e).2 = [] ∨ (s.tick now e).2 = [Effect.reconnect])
    ∧ (s.tick now e).1.connected_ = s.connected_ := by
  rcases s with ⟨mosq, conn, stopg, loop, infl, started, rec, b, st, wp, op, q⟩
  simp only [tick, tick_reconnect_, in_flight_timed_out_, has_mosq_]
  cases stopg <;> cases conn <;> cases mosq <;> cases infl <;> simp
  all_goals (repeat' split) <;> simp

theorem publish_disconnected (s : MqttClient) (topic payload : String) (qos : Int)
    (retain : Bool) (e : PublishEnv) (h : s.connected_ = false) :
    s.publish topic payload qos retain e
      = (false, (s.tick e.now_ensure e.env_ensure).1, (s.tick e.now_ensure e.env_ensure).2) := by
  have hc := (tick_trace s e.now_ensure e.env_ensure).2
  rw [h] at hc
  unfold tick at hc ⊢
  simp [publish, ensure_connected, h, hc]

/-- With no notification delivered during the call, `publish_during` is `publish`. -/
theorem publish_during_nil (s : MqttClient) (topic payload : String) (qos : Int)
    (retain : Bool) (e : PublishEnv) :
    s.publish_during topic payload qos retain e [] = s.publish topic payload qos retain e := by
  simp [publish_during, publish, ensure_connected_during, ensure_connected, deliver]

/-- Notifications other than `on_connect(0)` leave a client that is not connected not
connected. -/
theorem deliver_keeps_disconnected (s : MqttClient) (arrived : List Callback)
    (h : s.connected_ = false) (hno : ∀ c ∈ arrived, c ≠ Callback.on_connect 0) :
    (s.deliver arrived).1.connected_ = false := by
  induction arrived generalizing s with
  | nil => simpa [deliver] using h
  | cons c rest ih =>
    have hrest : ∀ c ∈ rest, c ≠ Callback.on_connect 0 :=
      fun c hc => hno c (List.mem_cons_of_mem _ hc)
    cases c with
    | on_connect rc =>
      have hrc : rc ≠ 0 := fun h0 => hno (Callback.on_connect rc) (List.mem_cons_self _ _)
        (by rw [h0])
      simp only [deliver]
      exact ih _ (by simp [on_connect, hrc]) hrest
    | on_disconnect rc =>
      simp only [deliver]
      exact ih _ (by simp [on_disconnect]) hrest

/-- C8, as stated, fails when the connect notification arrives while `publish()` runs:
on the constructed client (connected false) the tick of `ensure_connected` issues the
reconnect, the transport thread delivers `on_connect(0)`, the second `connected_.load()`
reads true, and `publish()` calls `mosquitto_publish` and returns true; when
`mosquitto_publish` returns `MOSQ_ERR_NO_CONN` instead, the tick that follows calls the
reconnect primitive a second time. -/
theorem C8_counterexample_connect_arrives :
    c1Client.connected_ = false
    ∧ (c1Client.publish_during "devices/dev1/telemetry" "payload" 1 false pubEnvSuccess
        [Callback.on_connect 0]).1 = true
    ∧ (c1Client.publish_during "devices/dev1/telemetry" "payload" 1 false pubEnvSuccess
        [Callback.on_connect 0]).2.2
        = [Effect.reconnect, Effect.publish "devices/dev1/telemetry" "payload" 1 false]
    ∧ publishCalls
        (c1Client.publish_during "devices/dev1/telemetry" "payload" 1 false pubEnvSuccess
          [Callback.on_connect 0]).2.2 = 1
    ∧ reconnectCalls
        (c1Client.publish_during "devices/dev1/telemetry" "payload" 1 false pubEnvNoConn
          [Callback.on_connect 0]).2.2 = 2 := by
  decide

/-- C8 (amended): in every state with connected false and for every topic, payload, qos
and retain, if connected is still false when `ensure_connected` reads it again after its
tick (whatever notifications the transport thread delivered in between), `publish()`
returns false, never calls `mosquitto_publish`, and calls the reconnect primitive at most
once (through the single tick of `ensure_connected`). -/
theorem C8_publish_while_still_disconnected (s : MqttClient) (topic payload : String)
    (qos : Int) (retain : Bool) (e : PublishEnv) (arrived : List Callback)
    (h : s.connected_ = false)
    (hstill : ((s.tick e.now_ensure e.env_ensure).1.deliver arrived).1.connected_ = false) :
    (s.publish_during topic payload qos retain e arrived).1 = false
    ∧ publishCalls (s.publish_during topic payload qos retain e arrived).2.2 = 0
    ∧ reconnectCalls (s.publish_during topic payload qos retain e arrived).2.2 ≤ 1
    ∧ (s.publish_during topic payload qos retain e arrived).2.2
        = (s.tick e.now_ensure e.env_ensure).2
    ∧ (s.publish_during topic payload qos retain e arrived).2.1
        = ((s.tick e.now_ensure e.env_ensure).1.deliver arrived).1 := by
  have hp : s.publish_during topic payload qos retain e arrived
      = (false, ((s.tick e.now_ensure e.env_ensure).1.deliver arrived).1,
          (s.tick e.now_ensure e.env_ensure).2) := by
    unfold tick at hstill ⊢
    simp [publish_during, ensure_connected_during, h, hstill]
  rw [hp]
  refine ⟨rfl, ?_, ?_, rfl, rfl⟩
  · rcases (tick_trace s e.now_ensure e.env_ensure).1 with h1 | h1 <;>
      simp [h1, publishCalls, Effect.isPublish]
  · rcases (tick_trace s e.now_ensure e.env_ensure).1 with h1 | h1 <;>
      simp [h1, reconnectCalls]

/-- C8 (amended) at the constructed client, whose publish triggers the one reconnect,
while the transport thread reports a failed connect and a disconnect. -/
theorem C8_publish_while_still_disconnected_witness :
    (c1Client.publish_during "devices/dev1/telemetry" "payload" 1 false pubEnvSuccess
        [Callback.on_connect 5, Callback.on_disconnect 5]).1 = false
    ∧ publishCalls
        (c1Client.publish_during "devices/dev1/telemetry" "payload" 1 false pubEnvSuccess
          [Callback.on_connect 5, Callback.on_disconnect 5]).2.2 = 0
    ∧ reconnectCalls
        (c1Client.publish_during "devices/dev1/telemetry" "payload" 1 false pubEnvSuccess
          [Callback.on_connect 5, Callback.on_disconnect 5]).2.2 ≤ 1
    ∧ (c1Client.publish_during "devices/dev1/telemetry" "payload" 1 false pubEnvSuccess
          [Callback.on_connect 5, Callback.on_disconnect 5]).2.2
        = (c1Client.tick pubEnvSuccess.now_ensure pubEnvSuccess.env_ensure).2
    ∧ (c1Client.publish_during "devices/dev1/telemetry" "payload" 1 false pubEnvSuccess
          [Callback.on_connect 5, Callback.on_disconnect 5]).2.1
        = ((c1Client.tick pubEnvSuccess.now_ensure pubEnvSuccess.env_ensure).1.deliver
            [Callback.on_connect 5, Callback.on_disconnect 5]).1 :=
  C8_publish_while_still_disconnected c1Client "devices/dev1/telemetry" "payload" 1 false
    pubEnvSuccess [Callback.on_connect 5, Callback.on_disconnect 5] (by decide) (by decide)

/-- C9: in every state with connected true and for every result `r` of
`mosquitto_publish`: `publish()` calls `mosquitto_publish` once and returns true exactly
when `r` is `MOSQ_ERR_SUCCESS`, leaving the state unchanged; when `r` is
`MOSQ_ERR_NO_CONN` it returns false and leaves the state of one tick run from the state
with connected set to false; on any other error it returns false and leaves the whole
state unchanged. -/
theorem C9_publish_while_connected (s : MqttClient) (topic payload : String) (qos : Int)
    (retain : Bool) (e : PublishEnv) (h : s.connected_ = true) :
    ((s.publish topic payload qos retain e).1 = true ↔ e.publish_rc = MOSQ_ERR_SUCCESS)
    ∧ publishCalls (s.publish topic payload qos retain e).2.2 = 1
    ∧ (e.publish_rc = MOSQ_ERR_SUCCESS → (s.publish topic payload qos retain e).2.1 = s)
    ∧ (e.publish_rc = MOSQ_ERR_NO_CONN →
        (s.publish topic payload qos retain e).1 = false
        ∧ (s.publish topic payload qos retain e).2.1
            = (({ s with connected_ := false } : MqttClient).tick
                e.now_noconn e.env_noconn).1)
    ∧ (e.publish_rc ≠ MOSQ_ERR_SUCCESS → e.publish_rc ≠ MOSQ_ERR_NO_CONN →
        (s.publish topic payload qos retain e).1 = false
        ∧ (s.publish topic payload qos retain e).2.1 = s) := by
  have htr := (tick_trace ({ s with connected_ := false } : MqttClient)
    e.now_noconn e.env_noconn).1
  unfold tick at htr ⊢
  by_cases h1 : e.publish_rc = MOSQ_ERR_NO_CONN
  · have h2 : e.publish_rc ≠ MOSQ_ERR_SUCCESS := by
      rw [h1]; exact fun h => success_ne_no_conn h.symm
    rcases htr with h3 | h3 <;>
      simp [publish, ensure_connected, h, h1, h2, h3, publishCalls, Effect.isPublish,
        Ne.symm success_ne_no_conn]
  · by_cases h2 : e.publish_rc = MOSQ_ERR_SUCCESS <;>
      simp [publish, ensure_connected, h, h1, h2, publishCalls, Effect.isPublish,
        success_ne_no_conn]

/-- C9 at a connected client whose transport reports `MOSQ_ERR_NO_CONN`. -/
theorem C9_publish_while_connected_witness :
    (((c1Client.on_connect 0).1.publish "devices/dev1/telemetry" "payload" 1 false
        pubEnvNoConn).1 = true ↔ pubEnvNoConn.publish_rc = MOSQ_ERR_SUCCESS)
    ∧ publishCalls ((c1Client.on_connect 0).1.publish "devices/dev1/telemetry" "payload" 1
        false pubEnvNoConn).2.2 = 1
    ∧ (pubEnvNoConn.publish_rc = MOSQ_ERR_SUCCESS →
        ((c1Client.on_connect 0).1.publish "devices/dev1/telemetry" "payload" 1 false
          pubEnvNoConn).2.1 = (c1Client.on_connect 0).1)
    ∧ (pubEnvNoConn.publish_rc = MOSQ_ERR_NO_CONN →
        ((c1Client.on_connect 0).1.publish "devices/dev1/telemetry" "payload" 1 false
          pubEnvNoConn).1 = false
        ∧ ((c1Client.on_connect 0).1.publish "devices/dev1/telemetry" "payload" 1 false
            pubEnvNoConn).2.1
            = (({ (c1Client.on_connect 0).1 with connected_ := false } : MqttClient).tick
                pubEnvNoConn.now_noconn pubEnvNoConn.env_noconn).1)
    ∧ (pubEnvNoConn.publish_rc ≠ MOSQ_ERR_SUCCESS →
        pubEnvNoConn.publish_rc ≠ MOSQ_ERR_NO_CONN →
        ((c1Client.on_connect 0).1.publish "devices/dev1/telemetry" "payload" 1 false
          pubEnvNoConn).1 = false
        ∧ ((c1Client.on_connect 0).1.publish "devices/dev1/telemetry" "payload" 1 false
            pubEnvNoConn).2.1 = (c1Client.on_connect 0).1) :=
  C9_publish_while_connected (c1Client.on_connect 0).1 "devices/dev1/telemetry" "payload" 1
    false pubEnvNoConn (by decide)

/-! ## C10: stop is idempotent -/

/-- C10, as stated, fails in a state that is not connected: the constructed client has
its handle and has not been stopped, and two `stop()` calls make one
`mosquitto_disconnect` call but no offline-status publish, because `publish_status_`
returns early when not connected. -/
theorem C10_counterexample_not_connected :
    c1Client.mosq_present = true ∧ c1Client.stopping_ = false
    ∧ (run c1Client [Op.stop, Op.stop]).2 = [Effect.disconnect]
    ∧ publishesOf c1Client.status_topic_ c1Client.will_payload_
        (run c1Client [Op.stop, Op.stop]).2 = 0
    ∧ publishCalls (run c1Client [Op.stop, Op.stop]).2 ≠ 1 := by
  decide

/-- C10 (amended): in every state with the handle present in which `stop()` has not been
called, two `stop()` calls in a row make exactly one `mosquitto_disconnect` call, and
exactly one publish, of the offline payload on the status topic, when the client was
connected and none when it was not; the second call changes no state and calls
nothing. -/
theorem C10_stop_twice (s : MqttClient) (hmosq : s.mosq_present = true)
    (hstop : s.stopping_ = false) :
    publishesOf s.status_topic_ s.will_payload_ (run s [Op.stop, Op.stop]).2
        = (if s.connected_ then 1 else 0)
    ∧ publishCalls (run s [Op.stop, Op.stop]).2 = (if s.connected_ then 1 else 0)
    ∧ disconnectCalls (run s [Op.stop, Op.stop]).2 = 1
    ∧ (s.stop).1.stop = ((s.stop).1, [])
    ∧ (run s [Op.stop, Op.stop]).1 = (s.stop).1 := by
  rcases s with ⟨mosq, conn, stopg, loop, infl, started, rec, b, st, wp, op, q⟩
  simp only at hmosq hstop
  subst hmosq hstop
  cases conn <;> cases loop <;>
    simp [run, step, stop, has_mosq_, publish_status_, publishesOf, publishCalls,
      disconnectCalls, Effect.isPublishOf, Effect.isPublish]

/-- C10 (amended) at a connected client with its network loop started. -/
theorem C10_stop_twice_witness :
    publishesOf connectedClient.status_topic_ connectedClient.will_payload_
        (run connectedClient [Op.stop, Op.stop]).2 = (if connectedClient.connected_ then 1 else 0)
    ∧ publishCalls (run connectedClient [Op.stop, Op.stop]).2
        = (if connectedClient.connected_ then 1 else 0)
    ∧ disconnectCalls (run connectedClient [Op.stop, Op.stop]).2 = 1
    ∧ (connectedClient.stop).1.stop = ((connectedClient.stop).1, [])
    ∧ (run connectedClient [Op.stop, Op.stop]).1 = (connectedClient.stop).1 :=
  C10_stop_twice connectedClient (by decide) (by decide)

/-! ## The backoff of a client keeps its bounds -/

theorem backoffInv_new : BackoffInv (ReconnectBackoff.new 1 k_max_backoff_seconds) := by
  decide

theorem backoffInv_init (mosq : Bool) (st wp op : String) (q : Int) :
    BackoffInv (MqttClient.init mosq st wp op q).backoff_ :=
  backoffInv_new

theorem backoffInv_reset (b : ReconnectBackoff) (h : BackoffInv b) : BackoffInv b.reset := by
  obtain ⟨h1, h2, h3, h4⟩ := h
  simp only [BackoffInv, ReconnectBackoff.reset, k_max_backoff_seconds] at *
  omega

/-- The backoff after a tick is the one before it with `schedule_attempt(now)` applied
zero, one or two times. -/
theorem tick_backoff (s : MqttClient) (now : Int) (e : TickEnv) :
    (s.tick now e).1.backoff_ = s.backoff_
    ∨ (s.tick now e).1.backoff_ = s.backoff_.schedule_attempt now e.jitter_timeout
    ∨ (s.tick now e).1.backoff_ = s.backoff_.schedule_attempt now e.jitter_attempt
    ∨ (s.tick now e).1.backoff_ =
        (s.backoff_.schedule_attempt now e.jitter_timeout).schedule_attempt now
          e.jitter_attempt := by
  rcases s with ⟨mosq, conn, stopg, loop, infl, started, rec, b, st, wp, op, q⟩
  simp only [tick, tick_reconnect_, in_flight_timed_out_, has_mosq_]
  cases stopg <;> cases conn <;> cases mosq <;> cases infl <;> simp
  all_goals (repeat' split) <;> simp

theorem backoffInv_tick (s : MqttClient) (now : Int) (e : TickEnv)
    (h : BackoffInv s.backoff_) : BackoffInv (s.tick now e).1.backoff_ := by
  rcases tick_backoff s now e with h1 | h1 | h1 | h1 <;> rw [h1]
  · exact h
  · exact schedule_attempt_inv _ _ _ h
  · exact schedule_attempt_inv _ _ _ h
  · exact schedule_attempt_inv _ _ _ (schedule_attempt_inv _ _ _ h)

theorem backoffInv_step (s : MqttClient) (op : Op) (h : BackoffInv s.backoff_) :
    BackoffInv (step s op).1.backoff_ := by
  cases op with
  | tick now e => exact backoffInv_tick s now e h
  | publish topic payload qos retain e =>
    have h1 := backoffInv_tick s e.now_ensure e.env_ensure h
    have h2 := backoffInv_tick ({ s with connected_ := false } : MqttClient)
      e.now_noconn e.env_noconn h
    have hc := (tick_trace s e.now_ensure e.env_ensure).2
    unfold tick at h1 h2 hc
    simp only [step, publish, ensure_connected]
    by_cases hconn : s.connected_ = true
    · by_cases hr1 : e.publish_rc = MOSQ_ERR_NO_CONN
      · simpa [hconn, hr1] using h2
      · by_cases hr2 : e.publish_rc = MOSQ_ERR_SUCCESS <;> simpa [hconn, hr1, hr2] using h
    · have hconn2 : s.connected_ = false := by simpa using hconn
      rw [hconn2] at hc
      simpa [hconn2, hc] using h1
  | onConnect rc =>
    by_cases hrc : rc = 0
    · simpa [step, on_connect, hrc] using backoffInv_reset _ h
    · simpa [step, on_connect, hrc] using h
  | onDisconnect rc => exact h
  | stop =>
    rcases s with ⟨mosq, conn, stopg, loop, infl, started, rec, b, st, wp, op, q⟩
    cases stopg <;> cases mosq <;> cases loop <;> simpa [step, stop, has_mosq_] using h
  | connect k rc1 rc2 =>
    rcases s with ⟨mosq, conn, stopg, loop, infl, started, rec, b, st, wp, op, q⟩
    by_cases h1 : rc1 = MOSQ_ERR_SUCCESS <;> by_cases h2 : rc2 = MOSQ_ERR_SUCCESS <;>
      cases mosq <;> cases loop <;>
      simpa [step, connect, has_mosq_, h1, h2] using h

/-- In every state a constructed client reaches by any sequence of calls, the backoff
has the bounds `1` and `60` and a delay between them. -/
theorem backoffInv_run (s : MqttClient) (ops : List Op) (h : BackoffInv s.backoff_) :
    BackoffInv (run s ops).1.backoff_ := by
  induction ops generalizing s with
  | nil => exact h
  | cons op rest ih => exact ih (step s op).1 (backoffInv_step s op h)

/-! ## C11: one `schedule_attempt` -/

/-- C11: for a backoff with current delay `d` such that `2 * d` fits in an `int`, every
time `now` and every jitter `j` (milliseconds), `schedule_attempt(now)` leaves
`next_time() = now + d seconds + j` and `backoff_seconds() = min(2 * d, max)`, and keeps
`initial_` and `max_`. -/
theorem C11_schedule_attempt_sets_next_and_doubles (b : ReconnectBackoff) (now j : Int)
    (hlo : -INT_MAX - 1 ≤ 2 * b.backoff_) (hhi : 2 * b.backoff_ ≤ INT_MAX) :
    (b.schedule_attempt now j).next_time
        = now + b.backoff_ * ticksPerSecond + j * ticksPerMilli
    ∧ (b.schedule_attempt now j).backoff_seconds = min (2 * b.backoff_) b.max_
    ∧ (b.schedule_attempt now j).initial_ = b.initial_
    ∧ (b.schedule_attempt now j).max_ = b.max_ := by
  simp only [INT_MAX] at hlo hhi
  have hw : wrapInt32 (b.backoff_ * 2) = 2 * b.backoff_ := by
    rw [wrapInt32_of_small _ (by omega) (by omega)]; omega
  refine ⟨?_, ?_, rfl, rfl⟩
  · simp only [ReconnectBackoff.schedule_attempt, ReconnectBackoff.schedule_next,
      ReconnectBackoff.next_time, ticksPerSecond, ticksPerMilli]
    omega
  · simp only [ReconnectBackoff.schedule_attempt, ReconnectBackoff.schedule_next,
      ReconnectBackoff.backoff_seconds, hw]

/-- C11 at the second call of the test `failure_doubles_backoff`: delay 2 s at
`now = 1 s`, zero jitter. -/
theorem C11_schedule_attempt_sets_next_and_doubles_witness :
    (backoffAfterOne.schedule_attempt 1000000000 0).next_time
        = 1000000000 + backoffAfterOne.backoff_ * ticksPerSecond + 0 * ticksPerMilli
    ∧ (backoffAfterOne.schedule_attempt 1000000000 0).backoff_seconds
        = min (2 * backoffAfterOne.backoff_) backoffAfterOne.max_
    ∧ (backoffAfterOne.schedule_attempt 1000000000 0).initial_ = backoffAfterOne.initial_
    ∧ (backoffAfterOne.schedule_attempt 1000000000 0).max_ = backoffAfterOne.max_ :=
  C11_schedule_attempt_sets_next_and_doubles backoffAfterOne 1000000000 0 (by decide)
    (by decide)

/-! ## C12: `can_attempt` against its specification -/

/-- The stored `next_` agrees with the time an attempt is waiting for: it is the
default time point when nothing is scheduled. -/
theorem scheduledTime_agrees (b : ReconnectBackoff) (pending : Option Int)
    (ops : List BackoffOp)
    (h : match pending with
      | none => b.next_ = 0
      | some t => b.next_ = t) :
    match b.scheduledTime pending ops with
    | none => (b.runOps ops).next_ = 0
    | some t => (b.runOps ops).next_ = t := by
  induction ops generalizing b pending with
  | nil => simpa [ReconnectBackoff.scheduledTime, ReconnectBackoff.runOps] using h
  | cons op rest ih =>
    cases op with
    | schedule now j =>
      simp only [ReconnectBackoff.scheduledTime, ReconnectBackoff.runOps,
        ReconnectBackoff.apply]
      exact ih _ _ rfl
    | reset =>
      simp only [ReconnectBackoff.scheduledTime, ReconnectBackoff.runOps,
        ReconnectBackoff.apply]
      exact ih _ _ rfl

/-- C12, as stated, fails when the time stored by the most recent `schedule_attempt` is
the tick count `0` and `now` is negative: on `ReconnectBackoff(1, 60)` with zero jitter,
`schedule_attempt(-1 s)` stores `next_ = -1 s + 1 s = 0`; a `schedule_attempt` has
happened and `now = -5 < 0`, yet `can_attempt(-5)` is true, because `next_ == 0` is what
the code reads as "nothing scheduled". -/
theorem C12_counterexample_stored_epoch :
    (ReconnectBackoff.new 1 60).scheduledTime none [BackoffOp.schedule (-1000000000) 0]
        = some 0
    ∧ ((ReconnectBackoff.new 1 60).runOps [BackoffOp.schedule (-1000000000) 0]).next_time = 0
    ∧ ((ReconnectBackoff.new 1 60).runOps [BackoffOp.schedule (-1000000000) 0]).can_attempt
        (-5) = true
    ∧ ReconnectBackoff.canAttemptSpec
        ((ReconnectBackoff.new 1 60).scheduledTime none [BackoffOp.schedule (-1000000000) 0])
        (-5) = false
    ∧ ¬ ((ReconnectBackoff.new 1 60).scheduledTime none [BackoffOp.schedule (-1000000000) 0]
          = none
        ∨ ∃ t, (ReconnectBackoff.new 1 60).scheduledTime none
              [BackoffOp.schedule (-1000000000) 0] = some t ∧ (-5 : Int) ≥ t) := by
  have hs : (ReconnectBackoff.new 1 60).scheduledTime none
      [BackoffOp.schedule (-1000000000) 0] = some 0 := by decide
  refine ⟨hs, by decide, by decide, by decide, ?_⟩
  rw [hs]
  rintro (h | ⟨t, ht, hge⟩)
  · exact absurd h (by simp)
  · have ht0 : t = 0 := by
      have := Option.some.inj ht
      omega
    omega

/-- C12 (amended): after any sequence of `schedule_attempt` and `reset` calls on a
constructed backoff and for every time `now` that is not negative, or whenever the time
stored by the most recent `schedule_attempt` is not the tick count `0`, `can_attempt(now)`
is what the specification says: true exactly when no `schedule_attempt` has happened
since construction or since the last `reset`, or `now >=` the time stored by the most
recent `schedule_attempt`.  Immediately after construction it is true for every `now`. -/
theorem C12_can_attempt_meets_spec (initial max : Int) (ops : List BackoffOp) (now : Int)
    (hclock : 0 ≤ now
      ∨ (ReconnectBackoff.new initial max).scheduledTime none ops ≠ some 0) :
    (((ReconnectBackoff.new initial max).runOps ops).can_attempt now = true
      ↔ ((ReconnectBackoff.new initial max).scheduledTime none ops = none
          ∨ ∃ t, (ReconnectBackoff.new initial max).scheduledTime none ops = some t
              ∧ now ≥ t))
    ∧ ((ReconnectBackoff.new initial max).runOps ops).can_attempt now
        = ReconnectBackoff.canAttemptSpec
            ((ReconnectBackoff.new initial max).scheduledTime none ops) now
    ∧ (∀ t : Int, (ReconnectBackoff.new initial max).can_attempt t = true) := by
  have h := scheduledTime_agrees (ReconnectBackoff.new initial max) none ops rfl
  have h0 : ∀ t, (ReconnectBackoff.new initial max).scheduledTime none ops = some t →
      t = 0 → 0 ≤ now := by
    intro t hp ht
    rcases hclock with hc | hc
    · exact hc
    · exact absurd (by rw [hp, ht]) hc
  refine ⟨?_, ?_, ?_⟩
  · cases hp : (ReconnectBackoff.new initial max).scheduledTime none ops with
    | none =>
      rw [hp] at h
      simp [ReconnectBackoff.can_attempt, h]
    | some t =>
      rw [hp] at h
      have h0t := h0 t hp
      simp only [ReconnectBackoff.can_attempt, h, Bool.or_eq_true, beq_iff_eq,
        decide_eq_true_eq, Option.some.injEq, exists_eq_left', false_or, reduceCtorEq]
      constructor
      · rintro (h1 | h1) <;> omega
      · intro h1; exact Or.inr h1
  · cases hp : (ReconnectBackoff.new initial max).scheduledTime none ops with
    | none =>
      rw [hp] at h
      simp [ReconnectBackoff.can_attempt, ReconnectBackoff.canAttemptSpec, h]
    | some t =>
      rw [hp] at h
      by_cases ht : t = 0
      · have h0t := h0 t hp ht
        subst ht
        simp [ReconnectBackoff.can_attempt, ReconnectBackoff.canAttemptSpec, h, h0t]
      · simp [ReconnectBackoff.can_attempt, ReconnectBackoff.canAttemptSpec, h, ht]
  · intro t
    simp [ReconnectBackoff.can_attempt, ReconnectBackoff.new]

/-- C12 (amended) at the test `failure_doubles_backoff`: two `schedule_attempt` calls,
asked at `now = 2 s`. -/
theorem C12_can_attempt_meets_spec_witness :
    (((ReconnectBackoff.new 1 60).runOps
          [BackoffOp.schedule 0 0, BackoffOp.schedule 1000000000 0]).can_attempt 2000000000
        = true
      ↔ ((ReconnectBackoff.new 1 60).scheduledTime none
            [BackoffOp.schedule 0 0, BackoffOp.schedule 1000000000 0] = none
          ∨ ∃ t, (ReconnectBackoff.new 1 60).scheduledTime none
                [BackoffOp.schedule 0 0, BackoffOp.schedule 1000000000 0] = some t
              ∧ 2000000000 ≥ t))
    ∧ ((ReconnectBackoff.new 1 60).runOps
          [BackoffOp.schedule 0 0, BackoffOp.schedule 1000000000 0]).can_attempt 2000000000
        = ReconnectBackoff.canAttemptSpec
            ((ReconnectBackoff.new 1 60).scheduledTime none
              [BackoffOp.schedule 0 0, BackoffOp.schedule 1000000000 0]) 2000000000
    ∧ (∀ t : Int, (ReconnectBackoff.new 1 60).can_attempt t = true) :=
  C12_can_attempt_meets_spec 1 60 [BackoffOp.schedule 0 0, BackoffOp.schedule 1000000000 0]
    2000000000 (Or.inl (by decide))

/-! ## C13: jitter never shortens the wait -/

/-- C13, as stated, fails for a negative time `now` at which `now + d seconds + jitter`
is the tick count `0`: on `ReconnectBackoff(1, 60)` (`d = 1`) with zero jitter,
`schedule_attempt(-1 s)` stores `next_ = 0`, which `can_attempt` reads as "nothing
scheduled", so `can_attempt(-0.5 s)` is true although `-1 s <= -0.5 s < -1 s + 1 s`. -/
theorem C13_counterexample_stored_epoch :
    0 ≤ (ReconnectBackoff.new 1 60).backoff_seconds
    ∧ (-1000000000 : Int) ≤ -500000000
    ∧ (-500000000 : Int)
        < -1000000000 + (ReconnectBackoff.new 1 60).backoff_seconds * ticksPerSecond
    ∧ ((ReconnectBackoff.new 1 60).schedule_attempt (-1000000000) 0).next_time = 0
    ∧ ((ReconnectBackoff.new 1 60).schedule_attempt (-1000000000) 0).can_attempt
        (-500000000) = true := by
  decide

/-- C13 (amended): for a backoff with current delay `d`, a jitter `j >= 0` and a time
`now` that is not negative or, more generally, for which the time `schedule_attempt(now)`
stores is not the tick count `0`: after `schedule_attempt(now)` the stored time is at
least `now + d seconds` and `can_attempt(t)` is false for every `t` with
`now <= t < now + d seconds` (there is such a `t` only when `d > 0`). -/
theorem C13_jitter_only_lengthens (b : ReconnectBackoff) (now j t : Int)
    (hj : 0 ≤ j) (hclock : 0 ≤ now ∨ (b.schedule_attempt now j).next_time ≠ 0)
    (h1 : now ≤ t) (h2 : t < now + b.backoff_ * ticksPerSecond) :
    (b.schedule_attempt now j).can_attempt t = false
    ∧ now + b.backoff_ * ticksPerSecond ≤ (b.schedule_attempt now j).next_time := by
  simp only [ticksPerSecond] at h2
  have hn : (b.schedule_attempt now j).next_
      = now + (b.backoff_ * 1000 + j) * 1000000 := rfl
  refine ⟨?_, ?_⟩
  · have hne : (b.schedule_attempt now j).next_ ≠ 0 := by
      rcases hclock with h0 | h
      · rw [hn]; omega
      · exact h
    have hlt : ¬ (t ≥ (b.schedule_attempt now j).next_) := by rw [hn]; omega
    simp [ReconnectBackoff.can_attempt, hne, hlt]
  · simp only [ReconnectBackoff.next_time, hn, ticksPerSecond]
    omega

/-- C13 (amended) at the test `failure_doubles_backoff`: delay 2 s scheduled at
`now = 1 s`, asked one second later, with 150 ms of jitter. -/
theorem C13_jitter_only_lengthens_witness :
    (backoffAfterOne.schedule_attempt 1000000000 150).can_attempt 2000000000 = false
    ∧ 1000000000 + backoffAfterOne.backoff_ * ticksPerSecond
        ≤ (backoffAfterOne.schedule_attempt 1000000000 150).next_time :=
  C13_jitter_only_lengthens backoffAfterOne 1000000000 150 2000000000 (by decide)
    (Or.inl (by decide)) (by decide) (by decide)

/-! ## C14, C15: the delay under repeated calls -/

/-- One `schedule_attempt` on a delay between 0 and a ceiling whose double fits in an
`int`: the delay stays in that range, does not shrink, and is `min(2 * d, max)`. -/
theorem schedule_attempt_bounded (b : ReconnectBackoff) (now j : Int)
    (h1 : 0 ≤ b.backoff_) (h2 : b.backoff_ ≤ b.max_) (h3 : 2 * b.max_ ≤ INT_MAX) :
    (b.schedule_attempt now j).backoff_ = min (2 * b.backoff_) b.max_
    ∧ b.backoff_ ≤ (b.schedule_attempt now j).backoff_
    ∧ (b.schedule_attempt now j).backoff_ ≤ b.max_ := by
  simp only [INT_MAX] at h3
  have hw : wrapInt32 (b.backoff_ * 2) = 2 * b.backoff_ := by
    rw [wrapInt32_of_small _ (by omega) (by omega)]; omega
  simp only [ReconnectBackoff.schedule_attempt, ReconnectBackoff.schedule_next, hw]
  refine ⟨trivial, ?_, ?_⟩ <;> omega

/-- The delay after `k` consecutive `schedule_attempt` calls is `min(d * 2^k, max)`. -/
theorem schedules_backoff (b : ReconnectBackoff) (calls : List (Int × Int))
    (h1 : 1 ≤ b.backoff_) (h2 : b.backoff_ ≤ b.max_) (h3 : 2 * b.max_ ≤ INT_MAX) :
    (b.schedules calls).backoff_ = min (b.backoff_ * 2 ^ calls.length) b.max_
    ∧ (b.schedules calls).max_ = b.max_ ∧ (b.schedules calls).initial_ = b.initial_ := by
  induction calls generalizing b with
  | nil => simp [ReconnectBackoff.schedules, h2]
  | cons c rest ih =>
    obtain ⟨now, j⟩ := c
    obtain ⟨e1, e2, e3⟩ := schedule_attempt_bounded b now j (by omega) h2 h3
    have hmax : (b.schedule_attempt now j).max_ = b.max_ := rfl
    have hini : (b.schedule_attempt now j).initial_ = b.initial_ := rfl
    obtain ⟨i1, i2, i3⟩ := ih (b.schedule_attempt now j) (by omega) (by rw [hmax]; exact e3)
      (by rw [hmax]; exact h3)
    simp only [ReconnectBackoff.schedules, List.length_cons]
    refine ⟨?_, by rw [i2, hmax], by rw [i3, hini]⟩
    rw [i1, hmax, e1]
    have hp : (1 : Int) ≤ 2 ^ rest.length := one_le_pow₀ (by norm_num)
    have hpow : b.backoff_ * 2 ^ (rest.length + 1) = 2 * b.backoff_ * 2 ^ rest.length := by
      rw [pow_succ]; ring
    rw [hpow]
    by_cases hc : 2 * b.backoff_ ≤ b.max_
    · rw [min_eq_left hc]
    · have hc2 : b.max_ < 2 * b.backoff_ := by omega
      rw [min_eq_right (le_of_lt hc2)]
      have hm0 : 0 ≤ b.max_ := by omega
      have q1 : b.max_ ≤ b.max_ * 2 ^ rest.length := le_mul_of_one_le_right hm0 hp
      have q2 : 2 * b.backoff_ ≤ 2 * b.backoff_ * 2 ^ rest.length :=
        le_mul_of_one_le_right (by omega) hp
      rw [min_eq_right q1, min_eq_right (by omega)]

theorem min_pow_eq_of_ge (m : Int) (k : Nat) (hm : m ≤ 1024) (hk : 10 ≤ k) :
    min ((1 : Int) * 2 ^ k) m = m := by
  have hp : (2 : Int) ^ 10 ≤ 2 ^ k := pow_le_pow_right₀ (by norm_num) hk
  have h10 : (2 : Int) ^ 10 = 1024 := by norm_num
  rw [one_mul]
  exact min_eq_right (by omega)

/-- C14: for `1 <= initial <= max` with `2 * max` within `int` range and every sequence
of `k` consecutive `schedule_attempt` calls (any clock readings, any jitter) on a freshly
constructed or freshly reset backoff, `backoff_seconds() = min(initial * 2^k, max)`; with
`initial = 1` and `max = 60` or `max = 8` it is `max` after 10 calls and after every
later call. -/
theorem C14_delay_after_k_calls (initial max : Int) (calls : List (Int × Int))
    (h1 : 1 ≤ initial) (h2 : initial ≤ max) (h3 : 2 * max ≤ INT_MAX) :
    ((ReconnectBackoff.new initial max).schedules calls).backoff_seconds
        = min (initial * 2 ^ calls.length) max
    ∧ (∀ b : ReconnectBackoff, b.initial_ = initial → b.max_ = max →
        (b.reset.schedules calls).backoff_seconds = min (initial * 2 ^ calls.length) max)
    ∧ (∀ more : List (Int × Int), 10 ≤ more.length →
        ((ReconnectBackoff.new 1 60).schedules more).backoff_seconds = 60
        ∧ ((ReconnectBackoff.new 1 8).schedules more).backoff_seconds = 8) := by
  refine ⟨?_, ?_, ?_⟩
  · exact (schedules_backoff (ReconnectBackoff.new initial max) calls h1 h2 h3).1
  · intro b hi hm
    have h := (schedules_backoff b.reset calls (by simpa [ReconnectBackoff.reset, hi] using h1)
      (by simpa [ReconnectBackoff.reset, hi, hm] using h2)
      (by simpa [ReconnectBackoff.reset, hm] using h3)).1
    simpa [ReconnectBackoff.reset, ReconnectBackoff.backoff_seconds, hi, hm] using h
  · intro more hlen
    have a1 := (schedules_backoff (ReconnectBackoff.new 1 60) more (by decide) (by decide)
      (by decide)).1
    have a2 := (schedules_backoff (ReconnectBackoff.new 1 8) more (by decide) (by decide)
      (by decide)).1
    simp only [ReconnectBackoff.new] at a1 a2
    simp only [ReconnectBackoff.backoff_seconds, ReconnectBackoff.new]
    rw [a1, a2]
    exact ⟨min_pow_eq_of_ge 60 _ (by norm_num) hlen, min_pow_eq_of_ge 8 _ (by norm_num) hlen⟩

/-- C14 at `initial = 1`, `max = 60` and three calls: the delay is 8 s. -/
theorem C14_delay_after_k_calls_witness :
    ((ReconnectBackoff.new 1 60).schedules
        [(0, 0), (1000000000, 0), (3000000000, 0)]).backoff_seconds
        = min (1 * 2 ^ [((0 : Int), (0 : Int)), (1000000000, 0), (3000000000, 0)].length) 60
    ∧ (∀ b : ReconnectBackoff, b.initial_ = 1 → b.max_ = 60 →
        (b.reset.schedules [(0, 0), (1000000000, 0), (3000000000, 0)]).backoff_seconds
          = min (1 * 2 ^ [((0 : Int), (0 : Int)), (1000000000, 0), (3000000000, 0)].length) 60)
    ∧ (∀ more : List (Int × Int), 10 ≤ more.length →
        ((ReconnectBackoff.new 1 60).schedules more).backoff_seconds = 60
        ∧ ((ReconnectBackoff.new 1 8).schedules more).backoff_seconds = 8) :=
  C14_delay_after_k_calls 1 60 [(0, 0), (1000000000, 0), (3000000000, 0)] (by decide)
    (by decide) (by decide)

/-- C15, as stated, fails for a negative initial delay: `ReconnectBackoff(-1, 60)` has
`initial <= max`, and its first `schedule_attempt` leaves the delay `-2`, below `initial`
and below the value before the call.  It also fails when `2 * max` does not fit in an
`int`: from the delay `2^30` the 32-bit doubling wraps to `-2^31`. -/
theorem C15_counterexample_negative_initial :
    negativeBackoff.initial_ ≤ negativeBackoff.max_
    ∧ (negativeBackoff.schedule_attempt 0 0).backoff_seconds = -2
    ∧ (negativeBackoff.schedule_attempt 0 0).backoff_seconds < negativeBackoff.initial_
    ∧ (negativeBackoff.schedule_attempt 0 0).backoff_seconds < negativeBackoff.backoff_seconds
    ∧ hugeBackoff.initial_ ≤ hugeBackoff.max_
    ∧ (hugeBackoff.schedule_attempt 0 0).backoff_seconds = -2147483648
    ∧ (hugeBackoff.schedule_attempt 0 0).backoff_seconds < hugeBackoff.initial_ := by
  decide

theorem runOps_bounded (b : ReconnectBackoff) (ops : List BackoffOp)
    (h0 : 0 ≤ b.initial_) (h1 : b.initial_ ≤ b.backoff_) (h2 : b.backoff_ ≤ b.max_)
    (h3 : 2 * b.max_ ≤ INT_MAX) :
    (b.runOps ops).initial_ = b.initial_ ∧ (b.runOps ops).max_ = b.max_
    ∧ b.initial_ ≤ (b.runOps ops).backoff_ ∧ (b.runOps ops).backoff_ ≤ b.max_ := by
  induction ops generalizing b with
  | nil => exact ⟨rfl, rfl, h1, h2⟩
  | cons op rest ih =>
    cases op with
    | schedule now j =>
      obtain ⟨_, e2, e3⟩ := schedule_attempt_bounded b now j (by omega) h2 h3
      exact ih (b.schedule_attempt now j) h0 (le_trans h1 e2) e3 h3
    | reset =>
      have h := ih b.reset h0 (le_refl _) (le_trans h1 h2) h3
      exact h

/-- C15 (amended): for a backoff constructed with `0 <= initial <= max` and `2 * max`
within `int` range, after every sequence of `schedule_attempt` and `reset` calls
`initial <= backoff_seconds() <= max`, and a further `schedule_attempt` leaves
`backoff_seconds()` greater than or equal to its value before the call. -/
theorem C15_delay_stays_in_range (initial max : Int) (ops : List BackoffOp)
    (h0 : 0 ≤ initial) (h1 : initial ≤ max) (h2 : 2 * max ≤ INT_MAX) :
    initial ≤ ((ReconnectBackoff.new initial max).runOps ops).backoff_seconds
    ∧ ((ReconnectBackoff.new initial max).runOps ops).backoff_seconds ≤ max
    ∧ (∀ now j : Int,
        ((ReconnectBackoff.new initial max).runOps ops).backoff_seconds
          ≤ (((ReconnectBackoff.new initial max).runOps ops).schedule_attempt now
              j).backoff_seconds) := by
  obtain ⟨e1, e2, e3, e4⟩ :=
    runOps_bounded (ReconnectBackoff.new initial max) ops h0 (le_refl _) h1 h2
  refine ⟨e3, e4, ?_⟩
  intro now j
  exact (schedule_attempt_bounded _ now j (le_trans h0 e3) (by rw [e2]; exact e4)
    (by rw [e2]; exact h2)).2.1

/-- C15 (amended) at `initial = 1`, `max = 60`: two calls, a reset and a call. -/
theorem C15_delay_stays_in_range_witness :
    1 ≤ ((ReconnectBackoff.new 1 60).runOps
        [BackoffOp.schedule 0 0, BackoffOp.schedule 1000000000 0, BackoffOp.reset,
          BackoffOp.schedule 5000000000 0]).backoff_seconds
    ∧ ((ReconnectBackoff.new 1 60).runOps
        [BackoffOp.schedule 0 0, BackoffOp.schedule 1000000000 0, BackoffOp.reset,
          BackoffOp.schedule 5000000000 0]).backoff_seconds ≤ 60
    ∧ (∀ now j : Int,
        ((ReconnectBackoff.new 1 60).runOps
          [BackoffOp.schedule 0 0, BackoffOp.schedule 1000000000 0, BackoffOp.reset,
            BackoffOp.schedule 5000000000 0]).backoff_seconds
          ≤ (((ReconnectBackoff.new 1 60).runOps
              [BackoffOp.schedule 0 0, BackoffOp.schedule 1000000000 0, BackoffOp.reset,
                BackoffOp.schedule 5000000000 0]).schedule_attempt now j).backoff_seconds) :=
  C15_delay_stays_in_range 1 60
    [BackoffOp.schedule 0 0, BackoffOp.schedule 1000000000 0, BackoffOp.reset,
      BackoffOp.schedule 5000000000 0] (by decide) (by decide) (by decide)

/-! ## C16: construction does not validate -/

/-- C16, as stated, fails: the constructor has no check.  `ReconnectBackoff(10, 5)` is
an object whose delay 10 is above its ceiling 5, it allows an attempt at once, and its
`schedule_attempt` works as on any other backoff. -/
theorem C16_counterexample_no_validation :
    invertedBackoff.initial_ > invertedBackoff.max_
    ∧ invertedBackoff.backoff_seconds = 10
    ∧ invertedBackoff.backoff_seconds > invertedBackoff.max_
    ∧ invertedBackoff.can_attempt 0 = true
    ∧ (invertedBackoff.schedule_attempt 0 0).next_time = 10000000000
    ∧ (invertedBackoff.schedule_attempt 0 0).backoff_seconds = 5 := by
  decide

/-- C16 (amended): for every `initial > max` the constructor yields a scheduler, not an
error: its delay is `initial`, above its ceiling `max`, and it allows an attempt at every
time.  The backoff of a client is constructed with 1 and 60, so that its delay is never
above its ceiling. -/
theorem C16_constructor_accepts_inverted_bounds (initial max : Int) (h : initial > max) :
    (ReconnectBackoff.new initial max).backoff_seconds = initial
    ∧ (ReconnectBackoff.new initial max).max_ = max
    ∧ (ReconnectBackoff.new initial max).backoff_seconds > (ReconnectBackoff.new initial max).max_
    ∧ (∀ t : Int, (ReconnectBackoff.new initial max).can_attempt t = true)
    ∧ (∀ (mosq : Bool) (st wp op : String) (q : Int) (ops : List Op),
        (run (MqttClient.init mosq st wp op q) ops).1.backoff_.backoff_seconds
          ≤ (run (MqttClient.init mosq st wp op q) ops).1.backoff_.max_) := by
  refine ⟨rfl, rfl, h, ?_, ?_⟩
  · intro t
    simp [ReconnectBackoff.can_attempt, ReconnectBackoff.new]
  · intro mosq st wp op q ops
    exact (backoffInv_run _ ops (backoffInv_init mosq st wp op q)).2.2.2

/-- C16 (amended) at `initial = 10`, `max = 5`. -/
theorem C16_constructor_accepts_inverted_bounds_witness :
    (ReconnectBackoff.new 10 5).backoff_seconds = 10
    ∧ (ReconnectBackoff.new 10 5).max_ = 5
    ∧ (ReconnectBackoff.new 10 5).backoff_seconds > (ReconnectBackoff.new 10 5).max_
    ∧ (∀ t : Int, (ReconnectBackoff.new 10 5).can_attempt t = true)
    ∧ (∀ (mosq : Bool) (st wp op : String) (q : Int) (ops : List Op),
        (run (MqttClient.init mosq st wp op q) ops).1.backoff_.backoff_seconds
          ≤ (run (MqttClient.init mosq st wp op q) ops).1.backoff_.max_) :=
  C16_constructor_accepts_inverted_bounds 10 5 (by decide)

/-! ## C17: the doubling does not saturate -/

/-- C17, as stated, fails: the doubling is a plain `backoff_ * 2`.  With the ceiling
`INT_MAX` and the delay `2^30` (between 0 and the ceiling), the 32-bit doubling wraps to
`-2^31` and `schedule_attempt` leaves that negative delay, not
`min(sat(2 * d), max) = INT_MAX`. -/
theorem C17_counterexample_doubling_wraps :
    0 ≤ hugeBackoff.backoff_seconds ∧ hugeBackoff.backoff_seconds ≤ hugeBackoff.max_
    ∧ hugeBackoff.max_ ≤ INT_MAX
    ∧ (hugeBackoff.schedule_attempt 0 0).backoff_seconds = -2147483648
    ∧ min (satInt32 (2 * hugeBackoff.backoff_seconds)) hugeBackoff.max_ = INT_MAX
    ∧ (hugeBackoff.schedule_attempt 0 0).backoff_seconds
        ≠ min (satInt32 (2 * hugeBackoff.backoff_seconds)) hugeBackoff.max_
    ∧ (hugeBackoff.schedule_attempt 0 0).backoff_seconds < hugeBackoff.backoff_seconds := by
  decide

/-- C17 (amended): for every ceiling `max` (an `int`, so at most the largest 32-bit
`int`) and every current delay `d` with `0 <= d <= max` and `d < 2^30`, `schedule_attempt` leaves
`backoff_seconds() = min(sat(2 * d), max) = min(2 * d, max)`, which is neither negative
nor smaller than `d`. -/
theorem C17_doubling_below_overflow (b : ReconnectBackoff) (now j : Int)
    (h0 : 0 ≤ b.backoff_) (h1 : b.backoff_ ≤ b.max_) (h3 : b.backoff_ < 1073741824) :
    (b.schedule_attempt now j).backoff_seconds = min (satInt32 (2 * b.backoff_)) b.max_
    ∧ (b.schedule_attempt now j).backoff_seconds = min (2 * b.backoff_) b.max_
    ∧ 0 ≤ (b.schedule_attempt now j).backoff_seconds
    ∧ b.backoff_ ≤ (b.schedule_attempt now j).backoff_seconds := by
  have hw : wrapInt32 (b.backoff_ * 2) = 2 * b.backoff_ := by
    rw [wrapInt32_of_small _ (by omega) (by omega)]; omega
  have hs : satInt32 (2 * b.backoff_) = 2 * b.backoff_ := by
    simp only [satInt32, INT_MAX]; omega
  simp only [ReconnectBackoff.schedule_attempt, ReconnectBackoff.schedule_next,
    ReconnectBackoff.backoff_seconds, hw, hs]
  refine ⟨trivial, trivial, ?_, ?_⟩ <;> omega

/-- C17 (amended) at the ceiling `INT_MAX` and the delay `2^30 - 1`, the largest that
doubles without overflow. -/
theorem C17_doubling_below_overflow_witness :
    (almostHugeBackoff.schedule_attempt 0 0).backoff_seconds
        = min (satInt32 (2 * almostHugeBackoff.backoff_)) almostHugeBackoff.max_
    ∧ (almostHugeBackoff.schedule_attempt 0 0).backoff_seconds
        = min (2 * almostHugeBackoff.backoff_) almostHugeBackoff.max_
    ∧ 0 ≤ (almostHugeBackoff.schedule_attempt 0 0).backoff_seconds
    ∧ almostHugeBackoff.backoff_ ≤ (almostHugeBackoff.schedule_attempt 0 0).backoff_seconds :=
  C17_doubling_below_overflow almostHugeBackoff 0 0 (by decide) (by decide) (by decide)

/-! ## C18: connected excludes in flight -/

theorem tick_keeps_disconnected (s : MqttClient) (now : Int) (e : TickEnv)
    (h : s.connected_ = false) : (s.tick now e).1.connected_ = false := by
  rw [(tick_trace s now e).2, h]

/-- The state `publish` leaves is the state it was given (when that was connected), or
the state a tick leaves from a state that is not connected. -/
theorem publish_state_cases (s : MqttClient) (topic payload : String) (qos : Int)
    (retain : Bool) (e : PublishEnv) :
    (s.connected_ = true ∧ (s.publish topic payload qos retain e).2.1 = s)
    ∨ (s.connected_ = true ∧ (s.publish topic payload qos retain e).2.1
        = (({ s with connected_ := false } : MqttClient).tick e.now_noconn e.env_noconn).1)
    ∨ (s.connected_ = false ∧ (s.publish topic payload qos retain e).2.1
        = (s.tick e.now_ensure e.env_ensure).1) := by
  by_cases hc : s.connected_ = true
  · by_cases h1 : e.publish_rc = MOSQ_ERR_NO_CONN
    · right; left
      refine ⟨hc, ?_⟩
      simp [publish, ensure_connected, hc, h1, tick]
    · left
      refine ⟨hc, ?_⟩
      by_cases h2 : e.publish_rc = MOSQ_ERR_SUCCESS <;>
        simp [publish, ensure_connected, hc, h1, h2, success_ne_no_conn]
  · have hc2 : s.connected_ = false := by simpa using hc
    right; right
    refine ⟨hc2, ?_⟩
    rw [publish_disconnected s topic payload qos retain e hc2]

theorem step_connected_not_in_flight (s : MqttClient) (op : Op)
    (h : s.connected_ = true → s.reconnect_in_flight_ = false) :
    (step s op).1.connected_ = true → (step s op).1.reconnect_in_flight_ = false := by
  cases op with
  | tick now e =>
    simp only [step]
    by_cases hc : s.connected_ = true
    · rw [tick_connected s now e hc]; exact h
    · intro h2
      rw [tick_keeps_disconnected s now e (by simpa using hc)] at h2
      exact absurd h2 (by simp)
  | publish topic payload qos retain e =>
    simp only [step]
    rcases publish_state_cases s topic payload qos retain e with ⟨_, h1⟩ | ⟨_, h1⟩ | ⟨hc, h1⟩
    · rw [h1]; exact h
    · rw [h1]
      intro h2
      rw [tick_keeps_disconnected _ _ _ rfl] at h2
      exact absurd h2 (by simp)
    · rw [h1]
      intro h2
      rw [tick_keeps_disconnected _ _ _ hc] at h2
      exact absurd h2 (by simp)
  | onConnect rc =>
    by_cases hrc : rc = 0 <;> simp [step, on_connect, hrc]
  | onDisconnect rc => simp [step, on_disconnect]
  | stop =>
    rcases s with ⟨mosq, conn, stopg, loop, infl, started, rec, b, st, wp, op, q⟩
    cases stopg <;> cases mosq <;> cases loop <;> simpa [step, stop, has_mosq_] using h
  | connect k rc1 rc2 =>
    rcases s with ⟨mosq, conn, stopg, loop, infl, started, rec, b, st, wp, op, q⟩
    by_cases h1 : rc1 = MOSQ_ERR_SUCCESS <;> by_cases h2 : rc2 = MOSQ_ERR_SUCCESS <;>
      cases mosq <;> cases loop <;>
      simpa [step, connect, has_mosq_, h1, h2] using h

theorem run_connected_not_in_flight (s : MqttClient) (ops : List Op)
    (h : s.connected_ = true → s.reconnect_in_flight_ = false) :
    (run s ops).1.connected_ = true → (run s ops).1.reconnect_in_flight_ = false := by
  induction ops generalizing s with
  | nil => exact h
  | cons op rest ih => exact ih (step s op).1 (step_connected_not_in_flight s op h)

/-- C18: in every state reached from a constructed client (all flags false, with or
without a handle) by any sequence of tick, publish, onConnect, onDisconnect, stop and
connect calls, with any clock readings and any results of the reconnect and publish
primitives, connected true implies in-flight false. -/
theorem C18_connected_implies_not_in_flight (mosq : Bool) (st wp op : String) (q : Int)
    (ops : List Op) :
    (run (MqttClient.init mosq st wp op q) ops).1.connected_ = true →
      (run (MqttClient.init mosq st wp op q) ops).1.reconnect_in_flight_ = false :=
  run_connected_not_in_flight _ ops (fun _ => rfl)

/-- C18 at a client connected after a reconnect was in flight. -/
theorem C18_connected_implies_not_in_flight_witness :
    (run (MqttClient.init true "devices/dev1/status" "offline" "online" 1)
        [Op.tick 1000 envSuccess, Op.onConnect 0]).1.connected_ = true
    ∧ (run (MqttClient.init true "devices/dev1/status" "offline" "online" 1)
        [Op.tick 1000 envSuccess, Op.onConnect 0]).1.reconnect_in_flight_ = false :=
  ⟨by decide,
    C18_connected_implies_not_in_flight true "devices/dev1/status" "offline" "online" 1
      [Op.tick 1000 envSuccess, Op.onConnect 0] (by decide)⟩

/-! ## C19: in flight implies a recorded start time -/

/-- C19, as stated, fails for the clock reading `now = 0`: the first tick of a
constructed client, with a successful reconnect, sets the in-flight flag and stores the
start time `0`, the value that means "no start time". -/
theorem C19_counterexample_tick_at_epoch :
    (run c1Client [Op.tick 0 envSuccess]).1.reconnect_in_flight_ = true
    ∧ (run c1Client [Op.tick 0 envSuccess]).1.reconnect_started_ticks_ = 0
    ∧ reconnectCalls (run c1Client [Op.tick 0 envSuccess]).2 = 1 := by
  decide

theorem tick_in_flight_has_start (s : MqttClient) (now : Int) (e : TickEnv) (hnow : now ≠ 0)
    (h : s.reconnect_in_flight_ = true → s.reconnect_started_ticks_ ≠ 0) :
    (s.tick now e).1.reconnect_in_flight_ = true →
      (s.tick now e).1.reconnect_started_ticks_ ≠ 0 := by
  rcases s with ⟨mosq, conn, stopg, loop, infl, started, rec, b, st, wp, op, q⟩
  simp only [tick, tick_reconnect_, in_flight_timed_out_, has_mosq_]
  simp only at h
  cases stopg <;> cases conn <;> cases mosq <;> cases infl <;> simp at h ⊢
  all_goals (repeat' split) <;> simp_all

theorem step_in_flight_has_start (s : MqttClient) (op : Op) (hop : op.ClocksNonzero)
    (h : s.reconnect_in_flight_ = true → s.reconnect_started_ticks_ ≠ 0) :
    (step s op).1.reconnect_in_flight_ = true →
      (step s op).1.reconnect_started_ticks_ ≠ 0 := by
  cases op with
  | tick now e => exact tick_in_flight_has_start s now e hop h
  | publish topic payload qos retain e =>
    simp only [step]
    rcases publish_state_cases s topic payload qos retain e with ⟨_, h1⟩ | ⟨_, h1⟩ | ⟨_, h1⟩
    · rw [h1]; exact h
    · rw [h1]; exact tick_in_flight_has_start _ _ _ hop.2 h
    · rw [h1]; exact tick_in_flight_has_start _ _ _ hop.1 h
  | onConnect rc =>
    by_cases hrc : rc = 0
    · simp [step, on_connect, hrc]
    · simpa [step, on_connect, hrc] using h
  | onDisconnect rc => simp [step, on_disconnect]
  | stop =>
    rcases s with ⟨mosq, conn, stopg, loop, infl, started, rec, b, st, wp, op, q⟩
    cases stopg <;> cases mosq <;> cases loop <;> simpa [step, stop, has_mosq_] using h
  | connect k rc1 rc2 =>
    rcases s with ⟨mosq, conn, stopg, loop, infl, started, rec, b, st, wp, op, q⟩
    by_cases h1 : rc1 = MOSQ_ERR_SUCCESS <;> by_cases h2 : rc2 = MOSQ_ERR_SUCCESS <;>
      cases mosq <;> cases loop <;>
      simpa [step, connect, has_mosq_, h1, h2] using h

theorem run_in_flight_has_start (s : MqttClient) (ops : List Op)
    (hops : ∀ op ∈ ops, op.ClocksNonzero)
    (h : s.reconnect_in_flight_ = true → s.reconnect_started_ticks_ ≠ 0) :
    (run s ops).1.reconnect_in_flight_ = true →
      (run s ops).1.reconnect_started_ticks_ ≠ 0 := by
  induction ops generalizing s with
  | nil => exact h
  | cons op rest ih =>
    exact ih (step s op).1 (fun o ho => hops o (List.mem_cons_of_mem _ ho))
      (step_in_flight_has_start s op (hops op (List.mem_cons_self _ _)) h)

/-- C19 (amended): in every state reached from a constructed client by any sequence of
tick, publish, onConnect, onDisconnect, stop and connect calls in which every clock
reading supplied to a tick (the ticks inside publish included) is different from zero,
in-flight true implies `reconnect_started_ticks_ != 0`. -/
theorem C19_in_flight_implies_start_recorded (mosq : Bool) (st wp op : String) (q : Int)
    (ops : List Op) (hops : ∀ o ∈ ops, o.ClocksNonzero) :
    (run (MqttClient.init mosq st wp op q) ops).1.reconnect_in_flight_ = true →
      (run (MqttClient.init mosq st wp op q) ops).1.reconnect_started_ticks_ ≠ 0 :=
  run_in_flight_has_start _ ops hops (fun h => absurd h (by simp [MqttClient.init]))

/-- C19 (amended) at the first tick of a constructed client at `now = 1000`. -/
theorem C19_in_flight_implies_start_recorded_witness :
    (∀ o ∈ [Op.tick 1000 envSuccess], o.ClocksNonzero)
    ∧ (run (MqttClient.init true "devices/dev1/status" "offline" "online" 1)
        [Op.tick 1000 envSuccess]).1.reconnect_in_flight_ = true
    ∧ (run (MqttClient.init true "devices/dev1/status" "offline" "online" 1)
        [Op.tick 1000 envSuccess]).1.reconnect_started_ticks_ ≠ 0 :=
  ⟨by decide, by decide,
    C19_in_flight_implies_start_recorded true "devices/dev1/status" "offline" "online" 1
      [Op.tick 1000 envSuccess] (by decide) (by decide)⟩

/-! ## C20: calls without a transport handle -/

/-- C20, as stated, fails for `stop()`: it sets the stopping flag before it checks the
handle, so on a client without a handle the flag changes from false to true (with no
transport call).  It also fails for `publish()` in a state without a handle in which
connected is set (`onConnect(0)` was delivered): `ensure_connected` returns true and
`mosquitto_publish` is called. -/
theorem C20_counterexample_stop_sets_flag :
    noHandleClient.mosq_present = false
    ∧ noHandleClient.stopping_ = false
    ∧ (noHandleClient.stop).1.stopping_ = true
    ∧ (noHandleClient.stop).1 ≠ noHandleClient
    ∧ (noHandleClient.stop).2 = []
    ∧ (noHandleClient.on_connect 0).1.mosq_present = false
    ∧ publishCalls
        ((noHandleClient.on_connect 0).1.publish "devices/dev1/telemetry" "payload" 1 false
          pubEnvInval).2.2 = 1 := by
  decide

/-- C20 (amended): in every state without a transport handle, `connect` returns false,
`tick` returns, and `publish` in a state that is not connected returns false, each with
no transport or reconnect call and with every field of the state unchanged; `stop()`
makes no transport or reconnect call either and changes no field other than the stopping
flag, which it sets. -/
theorem C20_no_handle_fails_fast (s : MqttClient) (h : s.mosq_present = false) :
    (∀ (k rc1 rc2 : Int), s.connect k rc1 rc2 = (false, s, []))
    ∧ (∀ (now : Int) (e : TickEnv), s.tick now e = (s, []))
    ∧ (s.connected_ = false →
        ∀ (topic payload : String) (qos : Int) (retain : Bool) (e : PublishEnv),
          s.publish topic payload qos retain e = (false, s, []))
    ∧ s.stop = ({ s with stopping_ := true }, [])
    ∧ (s.stopping_ = true → s.stop = (s, [])) := by
  have htick : ∀ (now : Int) (e : TickEnv), s.tick now e = (s, []) := by
    intro now e
    rcases s with ⟨mosq, conn, stopg, loop, infl, started, rec, b, st, wp, op, q⟩
    simp only at h
    subst h
    cases stopg <;> cases conn <;> simp [tick, tick_reconnect_, has_mosq_]
  refine ⟨?_, htick, ?_, ?_, ?_⟩
  · intro k rc1 rc2
    simp [connect, has_mosq_, h]
  · intro hc topic payload qos retain e
    rw [publish_disconnected s topic payload qos retain e hc, htick]
  · rcases s with ⟨mosq, conn, stopg, loop, infl, started, rec, b, st, wp, op, q⟩
    simp only at h
    subst h
    cases stopg <;> simp [stop, has_mosq_]
  · intro hs
    simp [stop, hs]

/-- C20 (amended) at a constructed client whose handle could not be allocated. -/
theorem C20_no_handle_fails_fast_witness :
    (∀ (k rc1 rc2 : Int), noHandleClient.connect k rc1 rc2 = (false, noHandleClient, []))
    ∧ (∀ (now : Int) (e : TickEnv), noHandleClient.tick now e = (noHandleClient, []))
    ∧ (noHandleClient.connected_ = false →
        ∀ (topic payload : String) (qos : Int) (retain : Bool) (e : PublishEnv),
          noHandleClient.publish topic payload qos retain e = (false, noHandleClient, []))
    ∧ noHandleClient.stop = ({ noHandleClient with stopping_ := true }, [])
    ∧ (noHandleClient.stopping_ = true → noHandleClient.stop = (noHandleClient, [])) :=
  C20_no_handle_fails_fast noHandleClient (by decide)

/-! ## C21: the backoff is shared without synchronisation -/

/-- The three statements of `schedule_next`, run without interruption, are
`schedule_attempt`. -/
theorem interleave_caller_alone (b : ReconnectBackoff) (now j : Int) :
    interleave (ScheduleCall.start now j) 0 b
        [ThreadId.caller, ThreadId.caller, ThreadId.caller]
      = b.schedule_attempt now j := by
  simp [interleave, ScheduleCall.step, ScheduleCall.start, ReconnectBackoff.schedule_attempt,
    ReconnectBackoff.schedule_next]

/-- The two statements of `reset`, run without interruption, are `reset`. -/
theorem interleave_callback_alone (b : ReconnectBackoff) (now j : Int) :
    interleave (ScheduleCall.start now j) 0 b [ThreadId.callback, ThreadId.callback]
      = b.reset := by
  simp [interleave, resetStep, ReconnectBackoff.reset]

/-- Run one after the other, the statements of the two calls give the result of the two
calls in that order. -/
theorem interleave_serial (b : ReconnectBackoff) (now j : Int) :
    interleave (ScheduleCall.start now j) 0 b
        [ThreadId.caller, ThreadId.caller, ThreadId.caller, ThreadId.callback,
          ThreadId.callback]
      = (b.schedule_attempt now j).reset
    ∧ interleave (ScheduleCall.start now j) 0 b
        [ThreadId.callback, ThreadId.callback, ThreadId.caller, ThreadId.caller,
          ThreadId.caller]
      = b.reset.schedule_attempt now j := by
  constructor <;>
    simp [interleave, resetStep, ScheduleCall.step, ScheduleCall.start,
      ReconnectBackoff.schedule_attempt, ReconnectBackoff.schedule_next, ReconnectBackoff.reset]

/-- C21 (the code at the failing input): `backoff_` is a plain member, so the statements
of the `backoff_.reset()` of `on_connect` (transport thread) and of the
`backoff_.schedule_attempt(now)` of `tick` (caller thread) can alternate.  From the delay
4 s, at `now = 10 s`, the alternation leaves the delay 2 s with no next-attempt time
stored, a state that neither order of the two calls leaves: access to the backoff is
neither atomic nor exclusive. -/
theorem C21_backoff_calls_interleave :
    interleave (ScheduleCall.start 10000000000 0) 0 backoffAfterTwo alternatingOrder
        = { initial_ := 1, max_ := 60, backoff_ := 2, next_ := 0 }
    ∧ (backoffAfterTwo.schedule_attempt 10000000000 0).reset
        = { initial_ := 1, max_ := 60, backoff_ := 1, next_ := 0 }
    ∧ backoffAfterTwo.reset.schedule_attempt 10000000000 0
        = { initial_ := 1, max_ := 60, backoff_ := 2, next_ := 11000000000 }
    ∧ interleave (ScheduleCall.start 10000000000 0) 0 backoffAfterTwo alternatingOrder
        ≠ (backoffAfterTwo.schedule_attempt 10000000000 0).reset
    ∧ interleave (ScheduleCall.start 10000000000 0) 0 backoffAfterTwo alternatingOrder
        ≠ backoffAfterTwo.reset.schedule_attempt 10000000000 0 := by
  decide

/-! ## C22: a tick that advances the backoff twice -/

/-- A tick that takes the timeout branch, on a client's backoff, with a jitter from
`[0, 200]` and at a clock reading `0 <= now`: it clears the in-flight flag, applies one
`schedule_attempt(now)` and calls nothing, because the time it has just stored is past
`now`. -/
theorem tick_timeout_branch (s : MqttClient) (now : Int) (e : TickEnv)
    (hstop : s.stopping_ = false) (hconn : s.connected_ = false)
    (hmosq : s.mosq_present = true) (ht : (s.in_flight_timed_out_ now).1 = true)
    (hinv : BackoffInv s.backoff_) (hj : JitterOk e.jitter_timeout) (h0 : 0 ≤ now) :
    (s.tick now e).2 = []
    ∧ (s.tick now e).1.backoff_ = s.backoff_.schedule_attempt now e.jitter_timeout
    ∧ (s.tick now e).1.reconnect_in_flight_ = false := by
  by_cases hf : s.reconnect_in_flight_ = true
  · by_cases hs : s.reconnect_started_ticks_ = 0
    · rw [tick_in_flight_sentinel s now e hstop hconn hmosq hf hs hinv hj h0]
      exact ⟨rfl, rfl, rfl⟩
    · by_cases hge : now - s.reconnect_started_ticks_ ≥ k_reconnect_in_flight_timeout
      · rw [tick_in_flight_timeout s now e hstop hconn hmosq hf hs hge hinv hj h0]
        exact ⟨rfl, rfl, rfl⟩
      · rw [in_flight_timed_out_early s now hf hs (by omega)] at ht
        exact absurd ht (by simp)
  · rw [in_flight_timed_out_idle s now (by simpa using hf)] at ht
    exact absurd ht (by simp)

/-- A tick that takes the timeout branch and then calls `reconnect_fn_()` has applied
`schedule_attempt(now)` twice. -/
theorem doublesBackoff_advances_twice (s : MqttClient) (now : Int) (e : TickEnv)
    (h : s.DoublesBackoff now e) :
    (s.tick now e).1.backoff_
      = (s.backoff_.schedule_attempt now e.jitter_timeout).schedule_attempt now
          e.jitter_attempt := by
  obtain ⟨h1, h2, h3, h4, h5⟩ := h
  rcases s with ⟨mosq, conn, stopg, loop, infl, started, rec, b, st, wp, op, q⟩
  simp only [has_mosq_] at h1 h2 h3
  subst h1 h2 h3
  simp only [tick, tick_reconnect_, in_flight_timed_out_, has_mosq_, reconnectCalls] at h4 h5 ⊢
  cases infl <;> simp at h4 h5 ⊢
  all_goals (repeat' split) <;> simp_all

/-- C22: for some state a constructed client reaches and some clock value `now`, a single
tick takes the in-flight-timeout branch, where it calls `schedule_attempt(now)`, then
calls the reconnect primitive and calls `schedule_attempt(now)` a second time.  The state
is the one left by a successful reconnect issued at the tick count `-20 s`, the clock
value is `-2 s`: the timeout branch stores `next_ = -2 s + 2 s = 0`, which `can_attempt`
reads as "nothing scheduled", and the delay goes from 2 s to 8 s within the tick. -/
theorem C22_tick_advances_backoff_twice :
    ∃ (ops : List Op) (now : Int) (e : TickEnv),
      e.JitterOk
      ∧ ((run c1Client ops).1).DoublesBackoff now e
      ∧ ((run c1Client ops).1.tick now e).2 = [Effect.reconnect]
      ∧ ((run c1Client ops).1.tick now e).1.backoff_
          = ((run c1Client ops).1.backoff_.schedule_attempt now
              e.jitter_timeout).schedule_attempt now e.jitter_attempt
      ∧ (run c1Client ops).1.backoff_.backoff_seconds = 2
      ∧ ((run c1Client ops).1.tick now e).1.backoff_.backoff_seconds = 8 :=
  ⟨[Op.tick (-20000000000) envSuccess], -2000000000, envSuccess, by decide⟩

/-- At clock readings `now >= 0` it does not happen: no state a constructed client reaches
(by any sequence of calls), with jitter from `[0, 200]`, makes a tick take the
in-flight-timeout branch and call the reconnect primitive. -/
theorem no_double_advance_of_nonneg :
    ¬ ∃ (mosq : Bool) (st wp op : String) (q : Int) (ops : List Op) (now : Int)
        (e : TickEnv),
        0 ≤ now ∧ e.JitterOk
        ∧ ((run (MqttClient.init mosq st wp op q) ops).1).DoublesBackoff now e := by
  rintro ⟨mosq, st, wp, op, q, ops, now, e, h0, hj, h1, h2, h3, h4, h5⟩
  have hinv := backoffInv_run _ ops (backoffInv_init mosq st wp op q)
  rw [(tick_timeout_branch _ now e h1 h2 h3 h4 hinv hj.1 h0).1] at h5
  simp [reconnectCalls] at h5

/-! ## C23: reconnect attempts are spaced by the backoff -/

/-- The log of a tick has one entry for each call of the reconnect primitive. -/
theorem tickLog_length (s : MqttClient) (now : Int) (e : TickEnv) :
    (s.tickLog now e).length = reconnectCalls (s.tick now e).2 := by
  rcases s with ⟨mosq, conn, stopg, loop, infl, started, rec, b, st, wp, op, q⟩
  simp only [tickLog, attemptDelay, tick, tick_reconnect_, in_flight_timed_out_, has_mosq_,
    reconnectCalls]
  cases stopg <;> cases conn <;> cases mosq <;> cases infl <;> simp
  all_goals (repeat' split) <;> simp_all

theorem tickLog_nil_of_trace_nil (s : MqttClient) (now : Int) (e : TickEnv)
    (h : (s.tick now e).2 = []) : s.tickLog now e = [] := by
  have hl := tickLog_length s now e
  rw [h] at hl
  exact List.length_eq_zero.mp (by simpa [reconnectCalls] using hl)

theorem tickLog_attempt (s : MqttClient) (now : Int) (e : TickEnv)
    (hstop : s.stopping_ = false) (hconn : s.connected_ = false)
    (hmosq : s.mosq_present = true)
    (hf : s.reconnect_in_flight_ = false) (hc : s.backoff_.can_attempt now = true) :
    s.tickLog now e = [(now, s.backoff_.backoff_)] := by
  simp [tickLog, attemptDelay, in_flight_timed_out_idle s now hf, hstop, hconn, hmosq,
    has_mosq_, hf, hc, ReconnectBackoff.backoff_seconds]

theorem tick_gated (s : MqttClient) (now : Int) (e : TickEnv)
    (h : s.stopping_ = true ∨ s.connected_ = true ∨ s.mosq_present = false) :
    s.tick now e = (s, []) := by
  rcases h with h | h | h
  · exact tick_stopping s now e h
  · exact tick_connected s now e h
  · rcases s with ⟨mosq, conn, stopg, loop, infl, started, rec, b, st, wp, op, q⟩
    simp only at h
    subst h
    cases stopg <;> cases conn <;> simp [tick, tick_reconnect_, has_mosq_]

theorem afterAttempt_backoff (s : MqttClient) (now rc j : Int) :
    (s.afterAttempt now rc j).backoff_ = s.backoff_.schedule_attempt now j := by
  by_cases h : rc = MOSQ_ERR_SUCCESS <;> simp [MqttClient.afterAttempt, h]

theorem guard_of_same_backoff (s t : MqttClient) (lo hi : Int) (last : Option (Int × Int))
    (hb : t.backoff_ = s.backoff_) (hle : lo ≤ hi) (hg : AttemptGuard s lo last) :
    AttemptGuard t hi last := by
  cases last with
  | none => trivial
  | some a =>
    obtain ⟨g1, g2, g3, g4, g5⟩ := hg
    exact ⟨g1, g2, le_trans g3 hle, by rw [hb]; exact g4, by rw [hb]; exact g5⟩

theorem guard_of_scheduled (s t : MqttClient) (lo now j : Int) (last : Option (Int × Int))
    (hb : t.backoff_ = s.backoff_.schedule_attempt now j) (hinv : BackoffInv s.backoff_)
    (hj : 0 ≤ j) (hle : lo ≤ now) (hg : AttemptGuard s lo last) :
    AttemptGuard t now last := by
  cases last with
  | none => trivial
  | some a =>
    obtain ⟨g1, g2, g3, g4, g5⟩ := hg
    obtain ⟨i1, i2, i3, i4⟩ := hinv
    simp only [k_max_backoff_seconds] at i2
    obtain ⟨_, b2, _⟩ := schedule_attempt_bounded s.backoff_ now j (by omega) i4
      (by rw [i2]; decide)
    have hn : (s.backoff_.schedule_attempt now j).next_
        = now + (s.backoff_.backoff_ * 1000 + j) * 1000000 := rfl
    refine ⟨g1, g2, le_trans g3 hle, by rw [hb]; omega, ?_⟩
    rw [hb, hn]
    simp only [ticksPerSecond]
    omega

theorem guard_new (s t : MqttClient) (now j : Int)
    (hb : t.backoff_ = s.backoff_.schedule_attempt now j) (hinv : BackoffInv s.backoff_)
    (hj : 0 ≤ j) (hnow : 0 < now) :
    AttemptGuard t now (some (now, s.backoff_.backoff_)) := by
  obtain ⟨i1, i2, i3, i4⟩ := hinv
  simp only [k_max_backoff_seconds] at i2
  obtain ⟨_, b2, _⟩ := schedule_attempt_bounded s.backoff_ now j (by omega) i4
    (by rw [i2]; decide)
  have hn : (s.backoff_.schedule_attempt now j).next_
      = now + (s.backoff_.backoff_ * 1000 + j) * 1000000 := rfl
  refine ⟨i3, hnow, le_refl _, by rw [hb]; exact b2, ?_⟩
  rw [hb, hn]
  simp only [ticksPerSecond]
  omega

/-- One tick against the guard of the last attempt: either it calls nothing and the guard
stays, or it calls the reconnect primitive once, at least the last delay after the last
attempt, and the guard of the new attempt holds. -/
theorem tick_guard (s : MqttClient) (now lo : Int) (e : TickEnv) (last : Option (Int × Int))
    (hinv : BackoffInv s.backoff_) (hj : e.JitterOk) (hlo : 1 ≤ lo) (hnow : lo ≤ now)
    (hg : AttemptGuard s lo last) :
    (s.tickLog now e = [] ∧ AttemptGuard (s.tick now e).1 now last)
    ∨ (s.tickLog now e = [(now, s.backoff_.backoff_)]
        ∧ 1 ≤ s.backoff_.backoff_
        ∧ (∀ l, last = some l → 1 ≤ l.2 ∧ l.2 * ticksPerSecond ≤ now - l.1)
        ∧ AttemptGuard (s.tick now e).1 now (some (now, s.backoff_.backoff_))) := by
  have h0 : 0 ≤ now := by omega
  by_cases hgate : s.stopping_ = true ∨ s.connected_ = true ∨ s.mosq_present = false
  · left
    have ht := tick_gated s now e hgate
    exact ⟨tickLog_nil_of_trace_nil s now e (by rw [ht]), by
      rw [ht]; exact guard_of_same_backoff s s lo now last rfl hnow hg⟩
  · have hstop : s.stopping_ = false := by
      cases h : s.stopping_ <;> simp_all
    have hconn : s.connected_ = false := by
      cases h : s.connected_ <;> simp_all
    have hmosq : s.mosq_present = true := by
      cases h : s.mosq_present <;> simp_all
    by_cases hf : s.reconnect_in_flight_ = true
    · left
      by_cases hs : s.reconnect_started_ticks_ = 0
      · have ht := tick_in_flight_sentinel s now e hstop hconn hmosq hf hs hinv hj.1 h0
        exact ⟨tickLog_nil_of_trace_nil s now e (by rw [ht]), by
          rw [ht]
          exact guard_of_scheduled s _ lo now e.jitter_timeout last rfl hinv hj.1.1 hnow hg⟩
      · by_cases hge : now - s.reconnect_started_ticks_ ≥ k_reconnect_in_flight_timeout
        · have ht := tick_in_flight_timeout s now e hstop hconn hmosq hf hs hge hinv hj.1 h0
          exact ⟨tickLog_nil_of_trace_nil s now e (by rw [ht]), by
            rw [ht]
            exact guard_of_scheduled s _ lo now e.jitter_timeout last rfl hinv hj.1.1 hnow
              hg⟩
        · have ht := tick_in_flight_early s now e hf hs (by omega)
          exact ⟨tickLog_nil_of_trace_nil s now e (by rw [ht]), by
            rw [ht]; exact guard_of_same_backoff s s lo now last rfl hnow hg⟩
    · have hf2 : s.reconnect_in_flight_ = false := by simpa using hf
      by_cases hc : s.backoff_.can_attempt now = true
      · right
        have ht := tick_attempt s now e hstop hconn hmosq hf2 hc
        refine ⟨tickLog_attempt s now e hstop hconn hmosq hf2 hc, hinv.2.2.1, ?_, ?_⟩
        · intro l hl
          subst hl
          obtain ⟨g1, g2, g3, g4, g5⟩ := hg
          simp only [ReconnectBackoff.can_attempt, Bool.or_eq_true, beq_iff_eq,
            decide_eq_true_eq] at hc
          simp only [ticksPerSecond] at g5 ⊢
          refine ⟨g1, ?_⟩
          rcases hc with hc | hc <;> omega
        · rw [ht]
          exact guard_new s _ now e.jitter_attempt (afterAttempt_backoff s now e.rc _) hinv
            hj.2.1 (by omega)
      · left
        have ht := tick_idle_blocked s now e hf2 (by simpa using hc)
        exact ⟨tickLog_nil_of_trace_nil s now e (by rw [ht]), by
          rw [ht]; exact guard_of_same_backoff s s lo now last rfl hnow hg⟩

theorem stop_backoff (s : MqttClient) : (s.stop).1.backoff_ = s.backoff_ := by
  rcases s with ⟨mosq, conn, stopg, loop, infl, started, rec, b, st, wp, op, q⟩
  cases stopg <;> cases mosq <;> cases loop <;> simp [stop, has_mosq_]

theorem connect_backoff (s : MqttClient) (k rc1 rc2 : Int) :
    (s.connect k rc1 rc2).2.1.backoff_ = s.backoff_ := by
  rcases s with ⟨mosq, conn, stopg, loop, infl, started, rec, b, st, wp, op, q⟩
  by_cases h1 : rc1 = MOSQ_ERR_SUCCESS <;> by_cases h2 : rc2 = MOSQ_ERR_SUCCESS <;>
    cases mosq <;> cases loop <;> simp [connect, has_mosq_, h1, h2]

/-- One call against the guard of the last attempt, as `tick_guard`; `lo'` is the last
clock reading after the call. -/
theorem step_guard (s : MqttClient) (op : Op) (rest : List Op) (lo : Int)
    (last : Option (Int × Int)) (hinv : BackoffInv s.backoff_) (hlo : 1 ≤ lo)
    (hclk : ClocksFrom lo (op :: rest)) (hj : op.JittersOk) (hnc : op.NoConnectSuccess)
    (hg : AttemptGuard s lo last) :
    ∃ lo', 1 ≤ lo' ∧ ClocksFrom lo' rest
      ∧ ((stepLog s op = [] ∧ AttemptGuard (step s op).1 lo' last)
        ∨ (∃ a, stepLog s op = [a] ∧ 1 ≤ a.2
            ∧ (∀ l, last = some l → 1 ≤ l.2 ∧ l.2 * ticksPerSecond ≤ a.1 - l.1)
            ∧ AttemptGuard (step s op).1 lo' (some a))) := by
  cases op with
  | tick now e =>
    obtain ⟨c1, c2⟩ := hclk
    refine ⟨now, by omega, c2, ?_⟩
    rcases tick_guard s now lo e last hinv hj hlo c1 hg with h | ⟨h1, h2, h3, h4⟩
    · exact Or.inl h
    · exact Or.inr ⟨_, h1, h2, h3, h4⟩
  | publish topic payload qos retain e =>
    obtain ⟨c1, c2, c3⟩ := hclk
    refine ⟨e.now_noconn, by omega, c3, ?_⟩
    by_cases hc : s.connected_ = true
    · by_cases h1 : e.publish_rc = MOSQ_ERR_NO_CONN
      · have hst : (step s (Op.publish topic payload qos retain e)).1
            = (({ s with connected_ := false } : MqttClient).tick e.now_noconn
                e.env_noconn).1 := by
          simp [step, publish, ensure_connected, hc, h1, tick]
        have hlog : stepLog s (Op.publish topic payload qos retain e)
            = ({ s with connected_ := false } : MqttClient).tickLog e.now_noconn
                e.env_noconn := by
          simp [stepLog, hc, h1]
        rw [hst, hlog]
        rcases tick_guard ({ s with connected_ := false } : MqttClient) e.now_noconn lo
            e.env_noconn last hinv hj.2 hlo (by omega)
            (guard_of_same_backoff s _ lo lo last rfl (le_refl _) hg) with h | ⟨h1, h2, h3, h4⟩
        · exact Or.inl h
        · exact Or.inr ⟨_, h1, h2, h3, h4⟩
      · left
        have hst : (step s (Op.publish topic payload qos retain e)).1 = s := by
          by_cases h2 : e.publish_rc = MOSQ_ERR_SUCCESS <;>
            simp [step, publish, ensure_connected, hc, h1, h2, success_ne_no_conn]
        have hlog : stepLog s (Op.publish topic payload qos retain e) = [] := by
          simp [stepLog, hc, h1]
        rw [hst]
        exact ⟨hlog, guard_of_same_backoff s s lo _ last rfl (by omega) hg⟩
    · have hc2 : s.connected_ = false := by simpa using hc
      have hst : (step s (Op.publish topic payload qos retain e)).1
          = (s.tick e.now_ensure e.env_ensure).1 := by
        simp only [step]
        rw [publish_disconnected s topic payload qos retain e hc2]
      have hlog : stepLog s (Op.publish topic payload qos retain e)
          = s.tickLog e.now_ensure e.env_ensure := by
        simp [stepLog, hc2]
      rw [hst, hlog]
      rcases tick_guard s e.now_ensure lo e.env_ensure last hinv hj.1 hlo c1 hg with
        ⟨h1, h2⟩ | ⟨h1, h2, h3, h4⟩
      · exact Or.inl ⟨h1, guard_of_same_backoff _ _ _ _ last rfl c2 h2⟩
      · exact Or.inr ⟨_, h1, h2, h3, guard_of_same_backoff _ _ _ _ _ rfl c2 h4⟩
  | onConnect rc =>
    refine ⟨lo, hlo, hclk, Or.inl ⟨rfl, ?_⟩⟩
    have hrc : rc ≠ 0 := hnc
    have hst : (step s (Op.onConnect rc)).1 = { s with connected_ := false } := by
      simp [step, on_connect, hrc]
    rw [hst]
    exact guard_of_same_backoff s _ lo lo last rfl (le_refl _) hg
  | onDisconnect rc =>
    exact ⟨lo, hlo, hclk, Or.inl ⟨rfl, guard_of_same_backoff s _ lo lo last rfl (le_refl _) hg⟩⟩
  | stop =>
    exact ⟨lo, hlo, hclk,
      Or.inl ⟨rfl, guard_of_same_backoff s _ lo lo last (stop_backoff s) (le_refl _) hg⟩⟩
  | connect k rc1 rc2 =>
    exact ⟨lo, hlo, hclk,
      Or.inl ⟨rfl, guard_of_same_backoff s _ lo lo last (connect_backoff s k rc1 rc2)
        (le_refl _) hg⟩⟩

/-- The attempts of a sequence of calls, after the last attempt before it, are spaced. -/
theorem runLog_spaced_from (ops : List Op) :
    ∀ (s : MqttClient) (lo : Int) (last : Option (Int × Int)),
      BackoffInv s.backoff_ → 1 ≤ lo → ClocksFrom lo ops →
      (∀ o ∈ ops, o.JittersOk) → (∀ o ∈ ops, o.NoConnectSuccess) →
      AttemptGuard s lo last →
      AttemptsSpaced (last.toList ++ runLog s ops) ∧ ∀ a ∈ runLog s ops, 1 ≤ a.2 := by
  induction ops with
  | nil =>
    intro s lo last _ _ _ _ _ _
    cases last <;> simp [runLog, AttemptsSpaced]
  | cons op rest ih =>
    intro s lo last hinv hlo hclk hj hnc hg
    obtain ⟨lo', hlo', hclk', hstep⟩ := step_guard s op rest lo last hinv hlo hclk
      (hj op (List.mem_cons_self _ _)) (hnc op (List.mem_cons_self _ _)) hg
    have hinv' := backoffInv_step s op hinv
    have hj' : ∀ o ∈ rest, o.JittersOk := fun o ho => hj o (List.mem_cons_of_mem _ ho)
    have hnc' : ∀ o ∈ rest, o.NoConnectSuccess :=
      fun o ho => hnc o (List.mem_cons_of_mem _ ho)
    rcases hstep with ⟨hlog, hg'⟩ | ⟨a, hlog, ha, hrel, hg'⟩
    · obtain ⟨i1, i2⟩ := ih (step s op).1 lo' last hinv' hlo' hclk' hj' hnc' hg'
      simp only [runLog, hlog, List.nil_append]
      exact ⟨i1, i2⟩
    · obtain ⟨i1, i2⟩ := ih (step s op).1 lo' (some a) hinv' hlo' hclk' hj' hnc' hg'
      simp only [runLog, hlog, List.singleton_append]
      simp only [Option.toList, List.singleton_append] at i1
      refine ⟨?_, ?_⟩
      · cases last with
        | none => simpa using i1
        | some l =>
          simp only [Option.toList, List.singleton_append]
          exact ⟨hrel l rfl, i1⟩
      · intro b hb
        rcases List.mem_cons.mp hb with hb | hb
        · rw [hb]; exact ha
        · exact i2 b hb

theorem stepLog_length (s : MqttClient) (op : Op) :
    (stepLog s op).length = reconnectCalls (step s op).2 := by
  cases op with
  | tick now e => exact tickLog_length s now e
  | publish topic payload qos retain e =>
    by_cases hc : s.connected_ = true
    · by_cases h1 : e.publish_rc = MOSQ_ERR_NO_CONN
      · have hl := tickLog_length ({ s with connected_ := false } : MqttClient)
          e.now_noconn e.env_noconn
        simp only [tick, reconnectCalls] at hl
        simp [stepLog, step, publish, ensure_connected, hc, h1, reconnectCalls, hl]
      · by_cases h2 : e.publish_rc = MOSQ_ERR_SUCCESS <;>
          simp [stepLog, step, publish, ensure_connected, hc, h1, h2, reconnectCalls,
            success_ne_no_conn]
    · have hc2 : s.connected_ = false := by simpa using hc
      simp only [step]
      rw [publish_disconnected s topic payload qos retain e hc2]
      simpa [stepLog, hc2] using tickLog_length s e.now_ensure e.env_ensure
  | onConnect rc =>
    rcases s with ⟨mosq, conn, stopg, loop, infl, started, rec, b, st, wp, op, q⟩
    by_cases hrc : rc = 0 <;> cases mosq <;>
      simp [stepLog, step, on_connect, publish_status_, has_mosq_, hrc, reconnectCalls]
  | onDisconnect rc => simp [stepLog, step, on_disconnect, reconnectCalls]
  | stop =>
    rcases s with ⟨mosq, conn, stopg, loop, infl, started, rec, b, st, wp, op, q⟩
    cases stopg <;> cases mosq <;> cases loop <;> cases conn <;>
      simp [stepLog, step, stop, has_mosq_, publish_status_, reconnectCalls]
  | connect k rc1 rc2 =>
    rcases s with ⟨mosq, conn, stopg, loop, infl, started, rec, b, st, wp, op, q⟩
    by_cases h1 : rc1 = MOSQ_ERR_SUCCESS <;> by_cases h2 : rc2 = MOSQ_ERR_SUCCESS <;>
      cases mosq <;> cases loop <;>
      simp [stepLog, step, connect, has_mosq_, h1, h2, reconnectCalls]

/-- The log of a sequence of calls has one entry for each call of the reconnect
primitive. -/
theorem runLog_length (s : MqttClient) (ops : List Op) :
    (runLog s ops).length = reconnectCalls (run s ops).2 := by
  induction ops generalizing s with
  | nil => simp [runLog, run, reconnectCalls]
  | cons op rest ih =>
    have h1 := stepLog_length s op
    have h2 := ih (step s op).1
    simp only [runLog, run, List.length_append, reconnectCalls, List.count_append] at *
    omega

/-- C23: from any state whose backoff is the client's (initial 1 s, max 60 s), for every
sequence of tick, publish, onConnect(rc != 0), onDisconnect, stop and connect calls whose
clock readings are strictly positive and do not decrease and whose jitters are from
`[0, 200]` ms: the log of the sequence has one entry `(t, d)` for each call of the
reconnect primitive, with `d >= 1` the delay in force at the call, and any two successive
entries `(t1, d1)`, `(t2, d2)` satisfy `t2 - t1 >= d1` seconds, hence at least one
second. -/
theorem C23_attempts_spaced_by_backoff (s : MqttClient) (ops : List Op)
    (hinv : BackoffInv s.backoff_) (hclk : ClocksFrom 1 ops)
    (hj : ∀ o ∈ ops, o.JittersOk) (hnc : ∀ o ∈ ops, o.NoConnectSuccess) :
    AttemptsSpaced (runLog s ops)
    ∧ (∀ a ∈ runLog s ops, 1 ≤ a.2)
    ∧ (runLog s ops).length = reconnectCalls (run s ops).2 := by
  obtain ⟨h1, h2⟩ := runLog_spaced_from ops s 1 none hinv (le_refl _) hclk hj hnc trivial
  exact ⟨by simpa using h1, h2, runLog_length s ops⟩

/-- C23 at a constructed client: attempts at 1000 ticks with delay 1 s, one second later
with delay 2 s, and two seconds after that with delay 4 s. -/
theorem C23_attempts_spaced_by_backoff_witness :
    runLog c1Client retryOps = [(1000, 1), (1000001000, 2), (3000001000, 4)]
    ∧ AttemptsSpaced (runLog c1Client retryOps)
    ∧ (∀ a ∈ runLog c1Client retryOps, 1 ≤ a.2)
    ∧ (runLog c1Client retryOps).length = reconnectCalls (run c1Client retryOps).2 :=
  ⟨by decide,
    C23_attempts_spaced_by_backoff c1Client retryOps (by decide) (by decide) (by decide)
      (by decide)⟩

end Telemetry
